import Mathlib

/-!
# FLAC structural decoder: embedding of `FlacDecoder.cc`

The input stream is modelled by the list of bytes not yet read.  `in.get`
on the empty list fails and leaves the list empty, which is how a
`std::istream` behaves once it has hit end of file: every later read fails
as well and consumes nothing.

Machine integers are natural numbers reduced modulo `2 ^ w` wherever the C++
type can overflow.  `char` is signed and 8 bits wide, `int` is 32 bits wide
and `unsigned long` is 64 bits wide (LP64); a `char` or an `int` is kept as
its two's complement bit pattern.  Writes to the log are left out: they do
not change the decoder state or the stream position.
-/

set_option autoImplicit false

namespace FlacDecoder

/-- One byte of input. -/
abbrev Byte := Fin 256

/-- The unread bytes of the input stream. -/
abbrev Stream := List Byte

/-- The macro `ONES(n)`, `(1UL << n) - 1`. -/
def ONES (n : Nat) : Nat := (1 <<< n) - 1

/-- Conversion of a `char` holding byte `c` to `unsigned long` (sign extension to 64 bits). -/
def charToULong (c : Nat) : Nat := if c < 128 then c else c + (2 ^ 64 - 256)

/-- Integer promotion of a `char` holding byte `c` to a 32-bit `int` bit pattern. -/
def charToInt (c : Nat) : Nat := if c < 128 then c else c + (2 ^ 32 - 256)

/-- Conversion of a 32-bit `int` bit pattern to an unsigned type of `w >= 32` bits. -/
def intToUnsigned (w : Nat) (x : Nat) : Nat :=
  if x < 2 ^ 31 then x else (x + (2 ^ w - 2 ^ 32)) % 2 ^ w

/-- The stream-info fields and the frame header of class `Flac::Frame`. -/
structure Frame where
  sync_code : Nat
  reserve_bit1 : Bool
  blocking_strategy : Bool
  blocksize_code : Nat
  sample_rate_code : Nat
  channel_assignment : Nat
  sample_size_code : Nat
  reserve_bit2 : Bool
  /-- The union `sf` as its 64 bits; `frame_number` is the low 32 bits. -/
  sf : Nat
  crc8 : Nat
  blocksize : Nat
  sample_rate : Nat
  n_channels : Nat
  deriving DecidableEq, Repr

/-- The class `Flac`. -/
structure Flac where
  min_block_length : Nat
  max_block_length : Nat
  min_frame_size : Nat
  max_frame_size : Nat
  variable_blocksize : Bool
  sample_rate : Nat
  n_channels : Nat
  bits_per_sample : Nat
  n_samples : Nat
  md5sum_a : Nat
  md5sum_b : Nat
  application_id : Nat
  frame : Frame
  deriving DecidableEq, Repr

/-- The method `Flac::reset_metadata`: every metadata field is cleared, the frame is kept. -/
def reset_metadata (flac : Flac) : Flac :=
  { flac with
    min_block_length := 0
    max_block_length := 0
    variable_blocksize := false
    min_frame_size := 0
    max_frame_size := 0
    sample_rate := 0
    n_channels := 0
    bits_per_sample := 0
    n_samples := 0
    md5sum_a := 0
    md5sum_b := 0
    application_id := 0 }

/-- The loop of `read_into`: `n` bytes still to read into the `w`-bit `dest`. -/
def read_into_loop (w : Nat) : Nat → Nat → Stream → Bool × Nat × Stream
  | 0, dest, s => (true, dest, s)
  | _ + 1, dest, [] => (false, dest, [])
  | n + 1, dest, c :: s =>
    read_into_loop w n (((dest <<< 8) ||| (charToULong c.val &&& ONES 8)) % 2 ^ w) s

/-- The function `read_into(in, n_bytes, dest)` for a destination of `w` bits: the
success flag, the final `dest` and the stream afterwards. -/
def read_into (w : Nat) (n_bytes : Nat) (s : Stream) : Bool × Nat × Stream :=
  read_into_loop w n_bytes 0 s

/-- The loop `for (...; i < n; i++) in.get();` that discards `n` bytes. -/
def skip : Nat → Stream → Stream
  | 0, s => s
  | _ + 1, [] => []
  | n + 1, _ :: s => skip n s

/-- The arithmetic shift `pat >>= 1` of a `char`: promotion to `int`, shift with the sign
bit kept, conversion back to `char`. -/
def charShiftRight1 (pat : Nat) : Nat :=
  ((charToInt pat >>> 1) ||| (charToInt pat &&& 2 ^ 31)) % 256

/-- The loop `for (pat = 0xE0; ((pat << 1) ^ c) & pat; pat >>= 1) extra_bytes++;` of
`read_into_utf8`, run for at most `fuel` tests of its condition: the final `pat` and
`extra_bytes`, or `none` when the condition still holds after `fuel` tests. -/
def utf8_scan : Nat → Nat → Nat → Nat → Option (Nat × Nat)
  | 0, _, _, _ => none
  | fuel + 1, c, pat, extra_bytes =>
    if ((((charToInt pat <<< 1) % 2 ^ 32) ^^^ charToInt c) &&& charToInt pat) ≠ 0 then
      utf8_scan fuel c (charShiftRight1 pat) (extra_bytes + 1)
    else
      some (pat, extra_bytes)

/-- The loop of `read_into_utf8` over the continuation bytes, `n` of them still to read. -/
def utf8_cont (w : Nat) : Nat → Nat → Stream → Bool × Nat × Stream
  | 0, dest, s => (true, dest, s)
  | _ + 1, dest, [] => (false, dest, [])
  | n + 1, dest, c :: s =>
    utf8_cont w n
      ((((dest <<< 6) % 2 ^ w) ||| intToUnsigned w (0x3F &&& charToInt c.val)) % 2 ^ w) s

/-- The function `read_into_utf8(in, dest)` for a destination of `w` bits: the success
flag, the final `dest` and the stream afterwards, or `none` when the scan of the leading
byte does not stop within `fuel` tests. -/
def read_into_utf8 (fuel : Nat) (w : Nat) (s : Stream) : Option (Bool × Nat × Stream) :=
  match s with
  | [] => some (false, 0, [])
  | c :: s =>
    if (0x80 &&& charToInt c.val) = 0 then
      some (true, (0 ||| intToUnsigned w (charToInt c.val)) % 2 ^ w, s)
    else
      match utf8_scan fuel c.val 0xE0 1 with
      | none => none
      | some (pat, extra_bytes) =>
        some (utf8_cont w extra_bytes
          ((0 ||| intToUnsigned w (charToInt c.val &&& (charToInt pat ^^^ (2 ^ 32 - 1)))) % 2 ^ w) s)

/-- The outcome of the first block of `parse_metadata`. -/
structure StreamInfoOut where
  /-- Whether the block did not execute `return false`. -/
  ok : Bool
  last_metadata_block_flag : Bool
  flac : Flac
  rest : Stream
  deriving DecidableEq, Repr

/-- The first block of `parse_metadata`, which reads the STREAMINFO block. -/
def parse_streaminfo (flac : Flac) (s : Stream) : StreamInfoOut :=
  let r := read_into 8 1 s
  let metadata_block_header := r.2.1
  let last_metadata_block_flag := decide (((1 <<< 7) &&& metadata_block_header) ≠ 0)
  let block_type := metadata_block_header &&& ONES 7
  let r := read_into 32 3 r.2.2
  if block_type ≠ 0 then
    ⟨false, last_metadata_block_flag, flac, r.2.2⟩
  else
    let r := read_into 16 2 r.2.2
    let flac := { flac with min_block_length := r.2.1 }
    let r := read_into 16 2 r.2.2
    let flac := { flac with max_block_length := r.2.1 }
    let flac :=
      if flac.min_block_length ≠ flac.max_block_length then
        { flac with variable_blocksize := true }
      else flac
    let r := read_into 32 3 r.2.2
    let flac := { flac with min_frame_size := r.2.1 }
    let r := read_into 32 3 r.2.2
    let flac := { flac with max_frame_size := r.2.1 }
    let r := read_into 64 8 r.2.2
    let tmp := r.2.1
    let flac := { flac with sample_rate := ((tmp >>> (3 + 5 + 36)) &&& ONES 20) % 2 ^ 32 }
    if flac.sample_rate = 0 then
      ⟨false, last_metadata_block_flag, flac, r.2.2⟩
    else
      let flac := { flac with n_channels := (((tmp >>> (5 + 36)) &&& ONES 3) + 1) % 2 ^ 8 }
      let flac := { flac with bits_per_sample := (((tmp >>> 36) &&& ONES 5) + 1) % 2 ^ 8 }
      let flac := { flac with n_samples := tmp &&& ONES 36 }
      let r := read_into 64 8 r.2.2
      let flac := { flac with md5sum_a := r.2.1 }
      let r := read_into 64 8 r.2.2
      let flac := { flac with md5sum_b := r.2.1 }
      ⟨true, last_metadata_block_flag, flac, r.2.2⟩

/-- One pass through the body of the loop `while (last_metadata_block_flag == false)` of
`parse_metadata`: the new flag, the decoder state and the stream afterwards. -/
def metadata_block (flac : Flac) (s : Stream) : Bool × Flac × Stream :=
  let r := read_into 8 1 s
  let metadata_block_header := r.2.1
  let last_metadata_block_flag := decide (((1 <<< 7) &&& metadata_block_header) ≠ 0)
  let block_type := metadata_block_header &&& ONES 7
  let r := read_into 32 3 r.2.2
  let block_length := r.2.1
  match block_type with
  | 0 => (last_metadata_block_flag, flac, skip block_length r.2.2)
  | 1 => (last_metadata_block_flag, flac, skip block_length r.2.2)
  | 2 =>
    let r := read_into 32 4 r.2.2
    let flac := { flac with application_id := r.2.1 }
    (last_metadata_block_flag, flac, skip ((block_length + (2 ^ 32 - 4)) % 2 ^ 32) r.2.2)
  | 3 => (last_metadata_block_flag, flac, skip block_length r.2.2)
  | 4 => (last_metadata_block_flag, flac, skip block_length r.2.2)
  | 5 => (last_metadata_block_flag, flac, skip block_length r.2.2)
  | 6 => (last_metadata_block_flag, flac, skip block_length r.2.2)
  | 127 => (last_metadata_block_flag, flac, skip block_length r.2.2)
  | _ => (last_metadata_block_flag, flac, skip block_length r.2.2)

/-- The loop `while (last_metadata_block_flag == false)` of `parse_metadata`, run for at
most `fuel` passes; `none` when the flag is still false after `fuel` passes. -/
def parse_metadata_loop : Nat → Bool → Flac → Stream → Option (Flac × Stream)
  | _, true, flac, s => some (flac, s)
  | 0, false, _, _ => none
  | fuel + 1, false, flac, s =>
    let r := metadata_block flac s
    parse_metadata_loop fuel r.1 r.2.1 r.2.2

/-- The method `FlacDecoder::parse_metadata`: its return value, the decoder state and the
stream afterwards, or `none` when the loop over the blocks runs out of fuel. -/
def parse_metadata (fuel : Nat) (flac : Flac) (s : Stream) : Option (Bool × Flac × Stream) :=
  let r := parse_streaminfo flac s
  if r.ok then
    match parse_metadata_loop fuel r.last_metadata_block_flag r.flac r.rest with
    | none => none
    | some (flac, s) => some (true, flac, s)
  else
    some (false, r.flac, r.rest)

/-- The function `get_channels`. -/
def get_channels (channel_assignment : Nat) : Nat :=
  if channel_assignment ≤ 0x07 then
    (channel_assignment + 1) % 2 ^ 16
  else if channel_assignment ≤ 0x0A then
    2
  else
    0

/-- The function `get_blocksize`: the value returned and the stream afterwards.  In C++
the operator `^` is exclusive or. -/
def get_blocksize (blocksize_code : Nat) (s : Stream) : Nat × Stream :=
  let blocksize_code := blocksize_code &&& 0x0F
  if blocksize_code = 0x00 then
    (0, s)
  else if blocksize_code = 0x01 then
    (192, s)
  else if blocksize_code ≤ 0x05 then
    ((576 * (2 ^^^ (blocksize_code - 2))) % 2 ^ 16, s)
  else if blocksize_code ≤ 0x08 then
    let r := read_into 16 (1 <<< (blocksize_code &&& 0x01)) s
    (r.2.1, r.2.2)
  else
    ((256 * (2 ^^^ (blocksize_code - 8))) % 2 ^ 16, s)

/-- The method `FlacDecoder::parse_frame`: its return value, the decoder state and the
stream afterwards, or `none` when `read_into_utf8` runs out of fuel. -/
def parse_frame (fuel : Nat) (flac : Flac) (s : Stream) : Option (Bool × Flac × Stream) :=
  let r := read_into 32 4 s
  let raw := r.2.1
  let frame : Frame := { flac.frame with sync_code := ((raw >>> 18) &&& ONES 14) % 2 ^ 16 }
  if frame.sync_code ≠ 0x3FFE then
    some (false, { flac with frame := frame }, r.2.2)
  else
    let frame : Frame := { frame with reserve_bit1 := decide (((raw >>> 17) &&& ONES 1) ≠ 0) }
    let frame : Frame := { frame with blocking_strategy := decide (((raw >>> 16) &&& ONES 1) ≠ 0) }
    let frame : Frame := { frame with blocksize_code := ((raw >>> 8) &&& ONES 4) % 2 ^ 8 }
    let frame : Frame := { frame with sample_rate_code := ((raw >>> 4) &&& ONES 4) % 2 ^ 8 }
    let frame : Frame := { frame with channel_assignment := ((raw >>> 4) &&& ONES 4) % 2 ^ 8 }
    let frame : Frame := { frame with n_channels := get_channels frame.channel_assignment }
    let frame : Frame := { frame with sample_size_code := ((raw >>> 1) &&& ONES 3) % 2 ^ 8 }
    let frame : Frame := { frame with reserve_bit2 := decide (((raw >>> 0) &&& ONES 1) ≠ 0) }
    let number :=
      if frame.blocking_strategy = true then
        read_into_utf8 fuel 64 r.2.2
      else
        read_into_utf8 fuel 32 r.2.2
    match number with
    | none => none
    | some u =>
      let frame : Frame :=
        if frame.blocking_strategy = true then
          { frame with sf := u.2.1 }
        else
          { frame with sf := frame.sf / 2 ^ 32 * 2 ^ 32 + u.2.1 }
      let b := get_blocksize frame.blocksize_code u.2.2
      let frame : Frame := { frame with blocksize := b.1 }
      let rate : Frame × Stream :=
        if (frame.sample_rate_code &&& 0x0C) = 0x0C then
          match frame.sample_rate_code &&& 0x03 with
          | 0 =>
            let r := read_into 32 1 b.2
            ({ frame with sample_rate := r.2.1 }, r.2.2)
          | 1 =>
            let r := read_into 32 2 b.2
            ({ frame with sample_rate := r.2.1 }, r.2.2)
          | 2 =>
            let r := read_into 32 2 b.2
            ({ frame with sample_rate := (r.2.1 * 10) % 2 ^ 32 }, r.2.2)
          | _ => (frame, b.2)
        else
          ({ frame with sample_rate := flac.sample_rate }, b.2)
      let r := read_into 8 1 rate.2
      let frame : Frame := { rate.1 with crc8 := r.2.1 }
      some (true, { flac with frame := frame }, r.2.2)

/-- The assignments of `parse_frame` that slice the frame word `raw` (lines 317 to 331). -/
def frame_fields (frame : Frame) (raw : Nat) : Frame :=
  let frame : Frame := { frame with reserve_bit1 := decide (((raw >>> 17) &&& ONES 1) ≠ 0) }
  let frame : Frame := { frame with blocking_strategy := decide (((raw >>> 16) &&& ONES 1) ≠ 0) }
  let frame : Frame := { frame with blocksize_code := ((raw >>> 8) &&& ONES 4) % 2 ^ 8 }
  let frame : Frame := { frame with sample_rate_code := ((raw >>> 4) &&& ONES 4) % 2 ^ 8 }
  let frame : Frame := { frame with channel_assignment := ((raw >>> 4) &&& ONES 4) % 2 ^ 8 }
  let frame : Frame := { frame with n_channels := get_channels frame.channel_assignment }
  let frame : Frame := { frame with sample_size_code := ((raw >>> 1) &&& ONES 3) % 2 ^ 8 }
  { frame with reserve_bit2 := decide (((raw >>> 0) &&& ONES 1) ≠ 0) }

/-- The sample rate resolution of `parse_frame` (lines 341 to 365) for the stream-info
sample rate `flac_rate`: the frame and the stream afterwards. -/
def resolve_sample_rate (flac_rate : Nat) (frame : Frame) (s : Stream) : Frame × Stream :=
  if (frame.sample_rate_code &&& 0x0C) = 0x0C then
    match frame.sample_rate_code &&& 0x03 with
    | 0 =>
      let r := read_into 32 1 s
      ({ frame with sample_rate := r.2.1 }, r.2.2)
    | 1 =>
      let r := read_into 32 2 s
      ({ frame with sample_rate := r.2.1 }, r.2.2)
    | 2 =>
      let r := read_into 32 2 s
      ({ frame with sample_rate := (r.2.1 * 10) % 2 ^ 32 }, r.2.2)
    | _ => (frame, s)
  else
    ({ frame with sample_rate := flac_rate }, s)

/-- The part of `parse_frame` that follows the read of the frame or sample number `u`
(lines 333 to 372). -/
def frame_finish (flac : Flac) (frame : Frame) (u : Bool × Nat × Stream) : Bool × Flac × Stream :=
  let frame : Frame :=
    if frame.blocking_strategy = true then
      { frame with sf := u.2.1 }
    else
      { frame with sf := frame.sf / 2 ^ 32 * 2 ^ 32 + u.2.1 }
  let b := get_blocksize frame.blocksize_code u.2.2
  let frame : Frame := { frame with blocksize := b.1 }
  let rate := resolve_sample_rate flac.sample_rate frame b.2
  let r := read_into 8 1 rate.2
  let frame : Frame := { rate.1 with crc8 := r.2.1 }
  (true, { flac with frame := frame }, r.2.2)

/-- The three calls of `parse_frame` in `decode`, whose return values are not used. -/
def decode_frames (fuel : Nat) : Nat → Flac → Stream → Option (Flac × Stream)
  | 0, flac, s => some (flac, s)
  | n + 1, flac, s =>
    match parse_frame fuel flac s with
    | none => none
    | some r => decode_frames fuel n r.2.1 r.2.2

/-- The method `FlacDecoder::decode`: the decoder state and the stream when it returns,
or `none` when a loop runs out of fuel. -/
def decode (fuel : Nat) (flac : Flac) (s : Stream) : Option (Flac × Stream) :=
  let r := read_into 32 4 s
  let fLaC := r.2.1
  if fLaC ≠ 0x664C6143 then
    some (flac, r.2.2)
  else
    match parse_metadata fuel flac r.2.2 with
    | none => none
    | some m =>
      if m.1 = false then
        some (m.2.1, m.2.2)
      else
        decode_frames fuel 3 m.2.1 m.2.2

/-- The state of the decoder built by `FlacDecoder(Verbosity v)`: a zero-initialised
`Flac` on which `reset_metadata` has run. -/
def initial : Flac :=
  reset_metadata
    { min_block_length := 0, max_block_length := 0, min_frame_size := 0, max_frame_size := 0,
      variable_blocksize := false, sample_rate := 0, n_channels := 0, bits_per_sample := 0,
      n_samples := 0, md5sum_a := 0, md5sum_b := 0, application_id := 0,
      frame :=
        { sync_code := 0, reserve_bit1 := false, blocking_strategy := false,
          blocksize_code := 0, sample_rate_code := 0, channel_assignment := 0,
          sample_size_code := 0, reserve_bit2 := false, sf := 0, crc8 := 0, blocksize := 0,
          sample_rate := 0, n_channels := 0 } }

/-! ## Reference values used to state the properties -/

/-- The bytes `bs` composed most significant byte first onto the accumulator `acc`. -/
def be_acc (acc : Nat) (bs : List Byte) : Nat :=
  bs.foldl (fun a b => a * 256 + b.val) acc

/-- The most-significant-byte-first value of the bytes `bs`. -/
def be_value (bs : List Byte) : Nat := be_acc 0 bs

/-- The byte with value `n` (reduced modulo 256). -/
def toByte (n : Nat) : Byte := ⟨n % 256, Nat.mod_lt n (by decide)⟩

/-- The `n` continuation bytes `10xxxxxx` of the variable-length encoding of `v`, each
carrying 6 bits of `v`, the most significant group first. -/
def utf8_tail : Nat → Nat → List Byte
  | 0, _ => []
  | n + 1, v => toByte (0x80 + (v / 64 ^ n) % 64) :: utf8_tail n v

/-- The variable-length encoding of `v` with `k` continuation bytes, as the specification
describes it: a leading byte made of `k + 1` one bits, a zero bit and the top `6 - k`
payload bits, followed by the `k` continuation bytes. -/
def utf8_encode (k v : Nat) : List Byte :=
  toByte ((2 ^ 8 - 2 ^ (7 - k)) + v / 64 ^ k) :: utf8_tail k v

/-- The decomposition of the 64-bit packed field `t` of STREAMINFO that the specification
gives, as a property of the decoder state `f`: the sample rate is the top 20 bits, the
channel count the next 3 bits plus one, the bits per sample the next 5 bits plus one, the
sample count the bottom 36 bits, so that the four fields determine `t`. -/
def streaminfo_decomposition (t : Nat) (f : Flac) : Prop :=
  f.sample_rate = t >>> 44 ∧ f.n_channels = ((t >>> 41) &&& 7) + 1 ∧
    f.bits_per_sample = ((t >>> 36) &&& 31) + 1 ∧ f.n_samples = t &&& (2 ^ 36 - 1) ∧
    (1 ≤ f.n_channels ∧ f.n_channels ≤ 8) ∧ (1 ≤ f.bits_per_sample ∧ f.bits_per_sample ≤ 32) ∧
    t = f.sample_rate * 2 ^ 44 + (f.n_channels - 1) * 2 ^ 41
          + (f.bits_per_sample - 1) * 2 ^ 36 + f.n_samples

/-- A STREAMINFO block with the last-block flag set: block length 34, block lengths 4096,
frame sizes 0, sample rate 44100, channel code 1, bits-per-sample code 15, no sample count
and a zero MD5 sum. -/
def streaminfo_example : Stream :=
  [0x80, 0, 0, 34, 0x10, 0, 0x10, 0, 0, 0, 0, 0, 0, 0, 0x0A, 0xC4, 0x42, 0xF0, 0, 0, 0, 0,
    0, 0, 0, 0, 0, 0, 0, 0, 0, 0, 0, 0, 0, 0, 0, 0]

/-- The first 22 bytes of `streaminfo_example`: the input ends right after the packed
field, before the 16 bytes of the MD5 sum. -/
def streaminfo_truncated : Stream :=
  [0x80, 0, 0, 34, 0x10, 0, 0x10, 0, 0, 0, 0, 0, 0, 0, 0x0A, 0xC4, 0x42, 0xF0, 0, 0, 0, 0]

/-- The block `streaminfo_example` with the last-block flag clear, so that the input ends
where the header of the next block is due. -/
def streaminfo_open : Stream :=
  [0x00, 0, 0, 34, 0x10, 0, 0x10, 0, 0, 0, 0, 0, 0, 0, 0x0A, 0xC4, 0x42, 0xF0, 0, 0, 0, 0,
    0, 0, 0, 0, 0, 0, 0, 0, 0, 0, 0, 0, 0, 0, 0, 0]

/-- The block `streaminfo_example` with the sample rate field set to 0 and every other
field kept. -/
def streaminfo_rate_zero : Stream :=
  [0x80, 0, 0, 34, 0x10, 0, 0x10, 0, 0, 0, 0, 0, 0, 0, 0x00, 0x00, 0x02, 0xF0, 0, 0, 0, 0,
    0, 0, 0, 0, 0, 0, 0, 0, 0, 0, 0, 0, 0, 0, 0, 0]

/-- The four bytes `fLaC` that open a FLAC stream. -/
def fLaC_marker : Stream := [0x66, 0x4C, 0x61, 0x43]

/-- Twelve bytes read as three frame words, none of which has the sync code `0x3FFE`. -/
def frames_bad_sync : Stream := [0, 0, 0, 0, 1, 2, 3, 4, 5, 6, 7, 8]

/-- A frame header with the frame word `0xFFF81100` (sync `0x3FFE`, fixed blocking
strategy, 1 in the bits 15..12 and in the bits 11..8), the frame number 0 and a CRC byte. -/
def frame_blocksize_example : Stream := [0xFF, 0xF8, 0x11, 0x00, 0x00, 0xAB]

/-- A frame header with the frame word `0xFFF800C0`, whose stored sample rate code is
`0xC`, the frame number 0, the escape byte 44, a CRC byte and one more byte. -/
def frame_rate_example : Stream := [0xFF, 0xF8, 0x00, 0xC0, 0x00, 44, 0xAB, 9]

/-- The decoder state after `parse_frame` on `frame_rate_example` from `initial`. -/
def frame_rate_example_state : Flac :=
  { initial with
    frame :=
      { sync_code := 0x3FFE, reserve_bit1 := false, blocking_strategy := false,
        blocksize_code := 0, sample_rate_code := 0xC, channel_assignment := 0xC,
        sample_size_code := 0, reserve_bit2 := false, sf := 0, crc8 := 0xAB, blocksize := 0,
        sample_rate := 44, n_channels := 0 } }

/-- The block types that the loop `while (last_metadata_block_flag == false)` dispatches
on, pass after pass, in the run that `parse_metadata_loop` makes with the same arguments. -/
def parse_metadata_loop_types : Nat → Bool → Flac → Stream → List Nat
  | _, true, _, _ => []
  | 0, false, _, _ => []
  | fuel + 1, false, flac, s =>
    ((read_into 8 1 s).2.1 &&& ONES 7) ::
      parse_metadata_loop_types fuel (metadata_block flac s).1 (metadata_block flac s).2.1
        (metadata_block flac s).2.2

/-- The block `streaminfo_example` with the minimum block length 1024 and the maximum
block length 4096. -/
def streaminfo_variable : Stream :=
  [0x80, 0, 0, 34, 0x04, 0, 0x10, 0, 0, 0, 0, 0, 0, 0, 0x0A, 0xC4, 0x42, 0xF0, 0, 0, 0, 0,
    0, 0, 0, 0, 0, 0, 0, 0, 0, 0, 0, 0, 0, 0, 0, 0]

/-- The packed field with sample rate 44100, channel code 1, bits-per-sample code 0 and
no sample count. -/
def packed_bits_code_0 : Stream := [0x0A, 0xC4, 0x42, 0x00, 0, 0, 0, 0]

/-- The packed field `packed_bits_code_0` with the bits-per-sample code 15. -/
def packed_bits_code_15 : Stream := [0x0A, 0xC4, 0x42, 0xF0, 0, 0, 0, 0]

/-- The block `streaminfo_open` followed by a padding block of length 2 and a seek table
block of length 0, neither with the last-block flag. -/
def streaminfo_then_blocks : Stream :=
  streaminfo_open ++ [0x01, 0, 0, 2, 0x11, 0x22, 0x03, 0, 0, 0]

/-- A block of type 0 and length 4 (a second STREAMINFO block), a padding block of length
1 with the last-block flag, and one more byte. -/
def metadata_chain : Stream := [0x00, 0, 0, 4, 0xFF, 0xFF, 0xFF, 0xFF, 0x81, 0, 0, 1, 0xAA, 7]

/-! ## The byte reader -/

theorem charToULong_and_ones (c : Byte) : charToULong c.val &&& ONES 8 = c.val := by
  have h := c.isLt
  have e : ONES 8 = 2 ^ 8 - 1 := by decide
  rw [e, Nat.and_pow_two_sub_one_eq_mod]
  unfold charToULong
  split <;> omega

theorem charToInt_and_3F (c : Byte) : 0x3F &&& charToInt c.val = c.val % 64 := by
  have h := c.isLt
  have e : (0x3F : Nat) = 2 ^ 6 - 1 := by decide
  rw [Nat.and_comm, e, Nat.and_pow_two_sub_one_eq_mod]
  unfold charToInt
  split <;> omega

theorem shift_or_byte (dest b : Nat) (h : b < 256) : (dest <<< 8) ||| b = dest * 256 + b := by
  rw [Nat.shiftLeft_eq, Nat.mul_comm]
  exact (Nat.mul_add_lt_is_or (i := 8) (by simpa using h) dest).symm

theorem be_acc_cons (acc : Nat) (b : Byte) (bs : List Byte) :
    be_acc acc (b :: bs) = be_acc (acc * 256 + b.val) bs := rfl

theorem be_acc_eq (acc : Nat) (bs : List Byte) :
    be_acc acc bs = acc * 256 ^ bs.length + be_value bs := by
  induction bs generalizing acc with
  | nil => simp [be_acc, be_value]
  | cons b bs ih =>
    have h1 := ih (acc * 256 + b.val)
    have h2 := ih (0 * 256 + b.val)
    simp only [be_value, be_acc_cons, List.length_cons] at h1 h2 ⊢
    rw [h1, h2]
    ring

theorem be_value_lt (bs : List Byte) : be_value bs < 256 ^ bs.length := by
  induction bs with
  | nil => simp [be_value, be_acc]
  | cons b bs ih =>
    have hb := b.isLt
    rw [be_value, be_acc_cons, be_acc_eq, List.length_cons, pow_succ]
    have hm : (0 * 256 + b.val) * 256 ^ bs.length ≤ 255 * 256 ^ bs.length :=
      Nat.mul_le_mul_right _ (by omega)
    omega

theorem be_acc_mod (m acc : Nat) (bs : List Byte) :
    be_acc (acc % m) bs % m = be_acc acc bs % m := by
  rw [be_acc_eq, be_acc_eq acc]
  conv_rhs => rw [Nat.add_mod, Nat.mul_mod]
  conv_lhs => rw [Nat.add_mod, Nat.mul_mod, Nat.mod_mod]

theorem read_into_loop_eq (w n dest : Nat) (s : Stream) (hd : dest < 2 ^ w) :
    read_into_loop w n dest s
      = (decide (n ≤ s.length), be_acc dest (s.take n) % 2 ^ w, s.drop n) := by
  induction n generalizing dest s with
  | zero => simp [read_into_loop, be_acc, Nat.mod_eq_of_lt hd]
  | succ n ih =>
    cases s with
    | nil => simp [read_into_loop, be_acc, Nat.mod_eq_of_lt hd]
    | cons c s =>
      have hp : 0 < 2 ^ w := Nat.pos_of_ne_zero (by positivity)
      rw [read_into_loop, charToULong_and_ones, shift_or_byte _ _ c.isLt,
        ih _ _ (Nat.mod_lt _ hp), be_acc_mod]
      simp [be_acc_cons]

theorem read_into_eq (w n : Nat) (s : Stream) :
    read_into w n s = (decide (n ≤ s.length), be_value (s.take n) % 2 ^ w, s.drop n) :=
  read_into_loop_eq w n 0 s (Nat.pos_of_ne_zero (by positivity))

theorem be_value_take_lt (n : Nat) (s : Stream) : be_value (s.take n) < 256 ^ n :=
  lt_of_lt_of_le (be_value_lt _) (Nat.pow_le_pow_right (by decide) (by simp))

theorem be_value_mod (n w : Nat) (bs : List Byte) (hl : bs.length ≤ n) (hw : 8 * n ≤ w) :
    be_value bs % 2 ^ w = be_value bs := by
  apply Nat.mod_eq_of_lt
  calc be_value bs < 256 ^ bs.length := be_value_lt bs
    _ ≤ 256 ^ n := Nat.pow_le_pow_right (by decide) hl
    _ = 2 ^ (8 * n) := by rw [show (256 : Nat) = 2 ^ 8 by rfl, ← pow_mul]
    _ ≤ 2 ^ w := Nat.pow_le_pow_right (by decide) hw

/-- A one-byte read yields the next byte, or 0 at the end of the input. -/
theorem read_header_byte (s : Stream) : (read_into 8 1 s).2.1 = (s.headD 0).val := by
  rw [read_into_eq]
  cases s with
  | nil => rfl
  | cons b s =>
    have := b.isLt
    simp [be_value, be_acc]

theorem skip_eq_drop (n : Nat) (s : Stream) : skip n s = s.drop n := by
  induction n generalizing s with
  | zero => rfl
  | succ n ih => cases s <;> simp [skip, ih]

/-! ## Block size resolution -/

/-- Claim C1, at the codes 0x2 to 0x5: `get_blocksize` reads no byte, and what it returns
is `576 * (2 xor (code - 2))`, that is 1152, 1728, 0 and 576, where the claim has the
powers 576, 1152, 2304 and 4608. -/
theorem get_blocksize_codes_2_to_5 (s : Stream) :
    get_blocksize 2 s = (1152, s) ∧ get_blocksize 3 s = (1728, s) ∧
      get_blocksize 4 s = (0, s) ∧ get_blocksize 5 s = (576, s) :=
  ⟨rfl, rfl, rfl, rfl⟩

/-- Claim C2, at the codes 0x8 to 0xF: code 0x8 falls in the branch of the escape codes and
returns the next byte of the stream, which it consumes; the codes 0x9 to 0xF read no byte
and return `256 * (2 xor (code - 8))`, that is 768, 0, 256, 1536, 1792, 1024 and 1280, where
the claim has 256, 512, ..., 32768. -/
theorem get_blocksize_codes_8_to_15 (b : Byte) (s : Stream) :
    get_blocksize 8 (b :: s) = (b.val, s) ∧ get_blocksize 9 s = (768, s) ∧
      get_blocksize 10 s = (0, s) ∧ get_blocksize 11 s = (256, s) ∧
      get_blocksize 12 s = (1536, s) ∧ get_blocksize 13 s = (1792, s) ∧
      get_blocksize 14 s = (1024, s) ∧ get_blocksize 15 s = (1280, s) := by
  refine ⟨?_, rfl, rfl, rfl, rfl, rfl, rfl, rfl⟩
  have hb := b.isLt
  have e : get_blocksize 8 (b :: s)
      = ((read_into 16 1 (b :: s)).2.1, (read_into 16 1 (b :: s)).2.2) := rfl
  rw [e, read_into_eq]
  simp [be_value, be_acc]
  omega

/-! ## The fields of the frame word -/

/-- Claim C3, at the frame word `0xFFF81200` (sync `0x3FFE`, bits 15..12 equal to 1, bits
11..8 equal to 2, bits 7..4 equal to 0): `parse_frame` accepts the frame and stores
`blocksize_code = 2` (bits 11..8) and `sample_rate_code = 0` (bits 7..4), where the claim
has the slices at bits 15..12 and 11..8, that is 1 and 2. -/
theorem parse_frame_word_FFF81200 :
    (be_value [0xFF, 0xF8, 0x12, 0x00] >>> 18 = 0x3FFE ∧
      (be_value [0xFF, 0xF8, 0x12, 0x00] >>> 12) &&& 0xF = 1 ∧
      (be_value [0xFF, 0xF8, 0x12, 0x00] >>> 8) &&& 0xF = 2) ∧
    (parse_frame 1 initial [0xFF, 0xF8, 0x12, 0x00, 0x00, 0x00]).map
        (fun r => (r.1, r.2.1.frame.blocksize_code, r.2.1.frame.sample_rate_code,
          r.2.1.frame.channel_assignment, r.2.2))
      = some (true, 2, 0, 0, []) := by
  decide

/-! ## The variable-length number -/

theorem utf8_scan_mono (f c pat e : Nat) (r : Nat × Nat) (h : utf8_scan f c pat e = some r) :
    ∀ g, f ≤ g → utf8_scan g c pat e = some r := by
  induction f generalizing pat e with
  | zero => simp [utf8_scan] at h
  | succ f ih =>
    intro g hg
    obtain ⟨g, rfl⟩ : ∃ g', g = g' + 1 := ⟨g - 1, by omega⟩
    rw [utf8_scan] at h ⊢
    split
    · rename_i hc
      rw [if_pos hc] at h
      exact ih _ _ h g (by omega)
    · rename_i hc
      rw [if_neg hc] at h
      exact h

/-- On the leading byte with `k + 1` one bits, a zero bit and the payload `p`, the scan
stops with `extra_bytes = k` and a `pat` whose complement keeps exactly the payload. -/
theorem utf8_lead_scan :
    ∀ k, k < 6 → 1 ≤ k → ∀ p, p < 2 ^ (6 - k) →
      (0x80 &&& charToInt (2 ^ 8 - 2 ^ (7 - k) + p)) ≠ 0 ∧
      utf8_scan 5 (2 ^ 8 - 2 ^ (7 - k) + p) 0xE0 1 = some (2 ^ 8 - 2 ^ (6 - k), k) ∧
      charToInt (2 ^ 8 - 2 ^ (7 - k) + p) &&& (charToInt (2 ^ 8 - 2 ^ (6 - k)) ^^^ (2 ^ 32 - 1))
        = p := by
  decide

theorem intToUnsigned_small (w x : Nat) (h : x < 2 ^ 31) : intToUnsigned w x = x := by
  unfold intToUnsigned
  rw [if_pos h]

theorem utf8_cont_tail (w n v : Nat) (rest : Stream) (hv : v < 2 ^ w) :
    utf8_cont w n (v / 64 ^ n) (utf8_tail n v ++ rest) = (true, v, rest) := by
  induction n with
  | zero => simp [utf8_cont, utf8_tail]
  | succ n ih =>
    have hx : (v / 64 ^ n) % 64 < 64 := Nat.mod_lt _ (by decide)
    have hb : (toByte (0x80 + (v / 64 ^ n) % 64)).val % 64 = (v / 64 ^ n) % 64 := by
      simp only [toByte]
      omega
    have hd : v / 64 ^ (n + 1) * 64 + (v / 64 ^ n) % 64 = v / 64 ^ n := by
      rw [pow_succ, ← Nat.div_div_eq_div_mul]
      omega
    have hle : v / 64 ^ n ≤ v := Nat.div_le_self _ _
    have hs : (v / 64 ^ (n + 1)) <<< 6 = v / 64 ^ (n + 1) * 64 := by
      rw [Nat.shiftLeft_eq]
    have hor : v / 64 ^ (n + 1) * 64 ||| (v / 64 ^ n) % 64 = v / 64 ^ n := by
      have h := Nat.mul_add_lt_is_or (i := 6) (b := (v / 64 ^ n) % 64) (by simpa using hx)
        (v / 64 ^ (n + 1))
      rw [show (2 : Nat) ^ 6 = 64 by rfl] at h
      rw [Nat.mul_comm, ← h]
      omega
    rw [utf8_tail, List.cons_append, utf8_cont, charToInt_and_3F, hb,
      intToUnsigned_small _ _ (by omega), hs,
      Nat.mod_eq_of_lt (by omega : v / 64 ^ (n + 1) * 64 < 2 ^ w), hor,
      Nat.mod_eq_of_lt (by omega : v / 64 ^ n < 2 ^ w)]
    exact ih

theorem utf8_tail_length (n v : Nat) : (utf8_tail n v).length = n := by
  induction n with
  | zero => rfl
  | succ n ih => simp [utf8_tail, ih]

/-- Claim C4: for `k` from 1 to 5 and `v < 2 ^ (5 * k + 6)`, the encoding of `v` with `k`
continuation bytes has `k + 1` bytes, and `read_into_utf8` on these bytes followed by any
bytes `rest` returns success with the value `v` and leaves exactly `rest` unread.  This
holds for a destination of 32 bits or more (the frame number has 32, the sample number 64)
and as soon as the fuel allows the five tests that the scan of a leading byte can need. -/
theorem read_into_utf8_roundtrip (k v w fuel : Nat) (rest : Stream)
    (hk1 : 1 ≤ k) (hk5 : k ≤ 5) (hv : v < 2 ^ (5 * k + 6)) (hw : 32 ≤ w) (hf : 5 ≤ fuel) :
    read_into_utf8 fuel w (utf8_encode k v ++ rest) = some (true, v, rest) ∧
      (utf8_encode k v).length = k + 1 := by
  refine ⟨?_, by simp [utf8_encode, utf8_tail_length]⟩
  have hp : v / 64 ^ k < 2 ^ (6 - k) := by
    rw [Nat.div_lt_iff_lt_mul (by positivity)]
    calc v < 2 ^ (5 * k + 6) := hv
      _ = 2 ^ (6 - k) * 64 ^ k := by
        rw [show (64 : Nat) = 2 ^ 6 by rfl, ← pow_mul, ← pow_add]
        congr 1
        omega
  obtain ⟨h1, h2, h3⟩ := utf8_lead_scan k (by omega) hk1 _ hp
  have hvw : v < 2 ^ w :=
    lt_of_lt_of_le hv (Nat.pow_le_pow_right (by decide) (by omega))
  have hlt : 2 ^ 8 - 2 ^ (7 - k) + v / 64 ^ k < 256 := by
    have : 2 ^ (6 - k) + 2 ^ (6 - k) = 2 ^ (7 - k) := by
      rw [show 7 - k = (6 - k) + 1 by omega, pow_succ]; omega
    have : 2 ^ (7 - k) ≤ 2 ^ 8 := Nat.pow_le_pow_right (by decide) (by omega)
    omega
  have hc : (toByte (2 ^ 8 - 2 ^ (7 - k) + v / 64 ^ k)).val
      = 2 ^ 8 - 2 ^ (7 - k) + v / 64 ^ k := by
    simp only [toByte]
    exact Nat.mod_eq_of_lt hlt
  have h32 : v / 64 ^ k < 2 ^ 31 :=
    lt_of_lt_of_le hp (Nat.pow_le_pow_right (by decide) (by omega))
  have hle : v / 64 ^ k ≤ v := Nat.div_le_self _ _
  rw [utf8_encode, List.cons_append, read_into_utf8, hc, if_neg h1,
    utf8_scan_mono _ _ _ _ _ h2 fuel hf]
  simp only []
  rw [h3, intToUnsigned_small _ _ h32, Nat.zero_or,
    Nat.mod_eq_of_lt (by omega : v / 64 ^ k < 2 ^ w), utf8_cont_tail _ _ _ _ hvw]

/-- The value `0x1234` with two continuation bytes, read into a 32-bit destination. -/
theorem read_into_utf8_roundtrip_witness :
    (1 ≤ 2 ∧ 2 ≤ 5 ∧ 0x1234 < 2 ^ (5 * 2 + 6) ∧ 32 ≤ 32 ∧ 5 ≤ 5) ∧
      read_into_utf8 5 32 (utf8_encode 2 0x1234 ++ [7]) = some (true, 0x1234, [7]) ∧
      (utf8_encode 2 0x1234).length = 2 + 1 :=
  ⟨by decide, read_into_utf8_roundtrip 2 0x1234 32 5 [7] (by decide) (by decide) (by decide)
    (by decide) (by decide)⟩

/-! ## The sync code -/

/-- The sync code that `parse_frame` stores is the top 14 bits of the word it read. -/
theorem sync_field_eq (s : Stream) :
    (((read_into 32 4 s).2.1 >>> 18) &&& ONES 14) % 2 ^ 16 = be_value (s.take 4) >>> 18 := by
  have hl := be_value_take_lt 4 s
  have e : ONES 14 = 2 ^ 14 - 1 := by decide
  rw [read_into_eq, e, Nat.and_pow_two_sub_one_eq_mod, Nat.shiftRight_eq_div_pow,
    Nat.shiftRight_eq_div_pow]
  simp only []
  omega

/-- Claim C5: for every input, every decoder state and every fuel, `parse_frame` returns
false if and only if the top 14 bits of the big-endian word made of the (up to) four bytes
it reads differ from `0x3FFE`. -/
theorem parse_frame_fails_iff_bad_sync (fuel : Nat) (flac : Flac) (s : Stream) :
    (∃ flac1 s1, parse_frame fuel flac s = some (false, flac1, s1)) ↔
      be_value (s.take 4) >>> 18 ≠ 0x3FFE := by
  unfold parse_frame
  simp only [sync_field_eq]
  by_cases h : be_value (s.take 4) >>> 18 = 0x3FFE
  · simp only [h, ne_eq, not_true_eq_false, if_false, iff_false]
    rintro ⟨f1, s1, hr⟩
    split at hr
    · simp at hr
    · simp at hr
  · simp [h]

set_option maxRecDepth 100000 in
/-- The scan of a leading byte from `0xC0` to `0xFE` stops within six tests. -/
theorem utf8_scan_stops :
    ∀ c : Byte, 0xC0 ≤ c.val → c.val ≤ 0xFE → (utf8_scan 6 c.val 0xE0 1).isSome = true := by
  decide

set_option maxRecDepth 100000 in
theorem charToInt_and_80 (c : Byte) : (0x80 &&& charToInt c.val = 0) ↔ c.val < 0x80 := by
  revert c
  decide

theorem read_into_utf8_returns (fuel w : Nat) (s : Stream) (hfuel : 6 ≤ fuel)
    (hlead : ∀ c, s.head? = some c → c.val < 0x80 ∨ (0xC0 ≤ c.val ∧ c.val ≤ 0xFE)) :
    ∃ u, read_into_utf8 fuel w s = some u := by
  cases s with
  | nil => exact ⟨_, rfl⟩
  | cons c s =>
    rw [read_into_utf8]
    split
    · exact ⟨_, rfl⟩
    · rename_i hc
      rw [charToInt_and_80] at hc
      obtain h | ⟨h1, h2⟩ := hlead c rfl
      · exact absurd h hc
      · have hs := utf8_scan_stops c h1 h2
        obtain ⟨r, hr⟩ := Option.isSome_iff_exists.mp hs
        rw [utf8_scan_mono _ _ _ _ _ hr fuel hfuel]
        exact ⟨_, rfl⟩

/-- With the sync code `0x3FFE`, `parse_frame` returns true as soon as the scan of the
leading byte of the frame or sample number stops, that is when the input ends after the
frame word or that byte is below `0x80` or from `0xC0` to `0xFE`. -/
theorem parse_frame_accepts (fuel : Nat) (flac : Flac) (s : Stream) (hfuel : 6 ≤ fuel)
    (hsync : be_value (s.take 4) >>> 18 = 0x3FFE)
    (hlead : ∀ c, (s.drop 4).head? = some c → c.val < 0x80 ∨ (0xC0 ≤ c.val ∧ c.val ≤ 0xFE)) :
    ∃ flac1 s1, parse_frame fuel flac s = some (true, flac1, s1) := by
  have hd : (read_into 32 4 s).2.2 = s.drop 4 := by rw [read_into_eq]
  obtain ⟨u, hu⟩ := read_into_utf8_returns fuel 64 (s.drop 4) hfuel hlead
  obtain ⟨v, hv⟩ := read_into_utf8_returns fuel 32 (s.drop 4) hfuel hlead
  unfold parse_frame
  simp only [sync_field_eq, hsync, ne_eq, not_true_eq_false, if_false, hd]
  split
  · rename_i hn
    split at hn
    · rw [hu] at hn
      exact absurd hn (by simp)
    · rw [hv] at hn
      exact absurd hn (by simp)
  · exact ⟨_, _, rfl⟩

/-! ## The STREAMINFO block -/

theorem packed_field_arith (t : Nat) (ht : t < 256 ^ 8) :
    (((t % 2 ^ 64) >>> (3 + 5 + 36)) &&& ONES 20) % 2 ^ 32 = t >>> 44 ∧
      ((((t % 2 ^ 64) >>> (5 + 36)) &&& ONES 3) + 1) % 2 ^ 8 = ((t >>> 41) &&& 7) + 1 ∧
      ((((t % 2 ^ 64) >>> 36) &&& ONES 5) + 1) % 2 ^ 8 = ((t >>> 36) &&& 31) + 1 ∧
      (t % 2 ^ 64) &&& ONES 36 = t &&& (2 ^ 36 - 1) := by
  have e20 : ONES 20 = 2 ^ 20 - 1 := by decide
  have e3 : ONES 3 = 2 ^ 3 - 1 := by decide
  have e5 : ONES 5 = 2 ^ 5 - 1 := by decide
  have e36 : ONES 36 = 2 ^ 36 - 1 := by decide
  have e7 : (7 : Nat) = 2 ^ 3 - 1 := by decide
  have e31 : (31 : Nat) = 2 ^ 5 - 1 := by decide
  have hm : t % 2 ^ 64 = t := Nat.mod_eq_of_lt (by omega)
  rw [hm, e20, e3, e5, e36, e7, e31]
  simp only [Nat.and_pow_two_sub_one_eq_mod, Nat.shiftRight_eq_div_pow]
  refine ⟨by omega, by omega, by omega, ?_⟩
  trivial

theorem streaminfo_decomposition_intro (t : Nat) (f : Flac)
    (h1 : f.sample_rate = t >>> 44) (h2 : f.n_channels = ((t >>> 41) &&& 7) + 1)
    (h3 : f.bits_per_sample = ((t >>> 36) &&& 31) + 1) (h4 : f.n_samples = t &&& (2 ^ 36 - 1)) :
    streaminfo_decomposition t f := by
  refine ⟨h1, h2, h3, h4, ?_⟩
  rw [h1, h2, h3, h4]
  have e7 : (7 : Nat) = 2 ^ 3 - 1 := by decide
  have e31 : (31 : Nat) = 2 ^ 5 - 1 := by decide
  rw [e7, e31]
  simp only [Nat.and_pow_two_sub_one_eq_mod, Nat.shiftRight_eq_div_pow]
  refine ⟨?_, ?_, ?_⟩ <;> omega

theorem streaminfo_decomposition_app (t : Nat) (f : Flac) (a : Nat)
    (h : streaminfo_decomposition t f) :
    streaminfo_decomposition t { f with application_id := a } := h

/-- The first block of `parse_metadata` on a block of type 0 whose packed field has a
nonzero sample rate: it does not return, it has read 38 bytes, and the fields it stores
decompose the packed field. -/
theorem parse_streaminfo_type0 (flac : Flac) (s : Stream)
    (hty : (s.headD 0).val &&& 127 = 0) (hsr : be_value ((s.drop 14).take 8) >>> 44 ≠ 0) :
    (parse_streaminfo flac s).ok = true ∧
      (parse_streaminfo flac s).last_metadata_block_flag = decide ((s.headD 0).val &&& 128 ≠ 0) ∧
      (parse_streaminfo flac s).rest = s.drop 38 ∧
      streaminfo_decomposition (be_value ((s.drop 14).take 8)) (parse_streaminfo flac s).flac := by
  have ht := be_value_take_lt 8 (s.drop 14)
  obtain ⟨a1, a2, a3, a4⟩ := packed_field_arith _ ht
  have e7 : ONES 7 = 127 := by decide
  unfold parse_streaminfo
  simp only [read_header_byte, e7, hty]
  simp only [read_into_eq, List.drop_drop, Nat.reduceAdd] at a1 a2 a3 a4 ⊢
  rw [if_neg (by simp), a1, if_neg hsr]
  refine ⟨rfl, ?_, rfl, streaminfo_decomposition_intro _ _ rfl a2 a3 a4⟩
  simp only [Nat.and_comm]
  rfl

theorem parse_streaminfo_rate_zero (flac : Flac) (s : Stream)
    (hty : (s.headD 0).val &&& 127 = 0) (hsr : be_value ((s.drop 14).take 8) >>> 44 = 0) :
    (parse_streaminfo flac s).ok = false := by
  have ht := be_value_take_lt 8 (s.drop 14)
  obtain ⟨a1, -, -, -⟩ := packed_field_arith _ ht
  have e7 : ONES 7 = 127 := by decide
  unfold parse_streaminfo
  simp only [read_header_byte, e7, hty]
  simp only [read_into_eq, List.drop_drop, Nat.reduceAdd] at a1 ⊢
  rw [if_neg (by simp), a1, if_pos hsr]

/-- One pass of the loop over the metadata blocks changes no field of the decoder state
other than `application_id`. -/
theorem metadata_block_flac (flac : Flac) (s : Stream) :
    ∃ a, (metadata_block flac s).2.1 = { flac with application_id := a } := by
  unfold metadata_block
  simp only []
  split <;> first | exact ⟨flac.application_id, rfl⟩ | exact ⟨_, rfl⟩

theorem parse_metadata_loop_flac (fuel : Nat) (flag : Bool) (flac : Flac) (s : Stream)
    (r : Flac × Stream) (h : parse_metadata_loop fuel flag flac s = some r) :
    ∃ a, r.1 = { flac with application_id := a } := by
  induction fuel generalizing flag flac s with
  | zero =>
    cases flag
    · simp [parse_metadata_loop] at h
    · simp only [parse_metadata_loop, Option.some.injEq] at h
      exact ⟨flac.application_id, by rw [← h]⟩
  | succ fuel ih =>
    cases flag
    · rw [parse_metadata_loop] at h
      obtain ⟨a, ha⟩ := metadata_block_flac flac s
      obtain ⟨b, hb⟩ := ih _ _ _ h
      exact ⟨b, by rw [hb, ha]⟩
    · simp only [parse_metadata_loop, Option.some.injEq] at h
      exact ⟨flac.application_id, by rw [← h]⟩

/-- Claim C6: on every input whose first block has type 0 and whose packed field `t`
(the big-endian value of the bytes 14 to 21) has nonzero top 20 bits, the fields that
the STREAMINFO part of `parse_metadata` stores are `sample_rate = t >> 44`,
`n_channels = ((t >> 41) & 7) + 1` in 1..8, `bits_per_sample = ((t >> 36) & 31) + 1` in
1..32 and `n_samples = t & (2^36 - 1)`, which determine `t`; whenever `parse_metadata`
returns, it returns true with these fields; and when the last-block flag is set it returns
for every fuel, with the stream right after the 38 bytes of the block. -/
theorem parse_metadata_streaminfo_fields (flac : Flac) (s : Stream)
    (hty : (s.headD 0).val &&& 127 = 0) (hsr : be_value ((s.drop 14).take 8) >>> 44 ≠ 0) :
    streaminfo_decomposition (be_value ((s.drop 14).take 8)) (parse_streaminfo flac s).flac ∧
      (∀ fuel r, parse_metadata fuel flac s = some r →
        r.1 = true ∧ streaminfo_decomposition (be_value ((s.drop 14).take 8)) r.2.1) ∧
      ((s.headD 0).val &&& 128 ≠ 0 → ∀ fuel,
        parse_metadata fuel flac s = some (true, (parse_streaminfo flac s).flac, s.drop 38)) := by
  obtain ⟨h1, h2, h3, h4⟩ := parse_streaminfo_type0 flac s hty hsr
  refine ⟨h4, ?_, ?_⟩
  · intro fuel r hr
    unfold parse_metadata at hr
    simp only [h1, if_true] at hr
    split at hr
    · simp at hr
    · rename_i f1 s1 hl
      obtain ⟨a, ha⟩ := parse_metadata_loop_flac _ _ _ _ _ hl
      simp only [Option.some.injEq] at hr
      subst hr
      simp only [] at ha ⊢
      rw [ha]
      exact ⟨trivial, streaminfo_decomposition_app _ _ _ h4⟩
  · intro hl fuel
    unfold parse_metadata
    simp only [h1, if_true, h2, h3, hl, ne_eq, not_false_eq_true, decide_True]
    cases fuel <;> rfl

/-- The block `streaminfo_example`: sample rate 44100, 2 channels, 16 bits per sample, no
sample count, and `parse_metadata` returns true at the end of the block without any pass
through the loop over the blocks (fuel 0). -/
theorem parse_metadata_streaminfo_fields_witness :
    ((streaminfo_example.headD 0).val &&& 127 = 0 ∧
      be_value ((streaminfo_example.drop 14).take 8) >>> 44 ≠ 0) ∧
    (streaminfo_decomposition (be_value ((streaminfo_example.drop 14).take 8))
        (parse_streaminfo initial streaminfo_example).flac ∧
      (∀ fuel r, parse_metadata fuel initial streaminfo_example = some r →
        r.1 = true ∧
          streaminfo_decomposition (be_value ((streaminfo_example.drop 14).take 8)) r.2.1) ∧
      ((streaminfo_example.headD 0).val &&& 128 ≠ 0 → ∀ fuel,
        parse_metadata fuel initial streaminfo_example
          = some (true, (parse_streaminfo initial streaminfo_example).flac,
              streaminfo_example.drop 38))) ∧
    (parse_metadata 0 initial streaminfo_example).map
        (fun r => (r.1, r.2.1.sample_rate, r.2.1.n_channels, r.2.1.bits_per_sample,
          r.2.1.n_samples, r.2.2))
      = some (true, 44100, 2, 16, 0, []) :=
  ⟨by decide, parse_metadata_streaminfo_fields initial streaminfo_example (by decide) (by decide),
    by rfl⟩

/-- Claim C7: on every input whose first block has type 0 and whose 20-bit sample rate
field (the top 20 bits of the big-endian value of the bytes 14 to 21) is 0,
`parse_metadata` returns false, for every fuel, every decoder state, every other byte
and every length of the input. -/
theorem parse_metadata_rate_zero (fuel : Nat) (flac : Flac) (s : Stream)
    (hty : (s.headD 0).val &&& 127 = 0) (hsr : be_value ((s.drop 14).take 8) >>> 44 = 0) :
    ∃ flac1 s1, parse_metadata fuel flac s = some (false, flac1, s1) := by
  unfold parse_metadata
  simp only [parse_streaminfo_rate_zero flac s hty hsr]
  exact ⟨_, _, rfl⟩

/-- The block `streaminfo_rate_zero`, a complete STREAMINFO block whose sample rate field
is 0. -/
theorem parse_metadata_rate_zero_witness :
    (streaminfo_rate_zero.headD 0).val &&& 127 = 0 ∧
      be_value ((streaminfo_rate_zero.drop 14).take 8) >>> 44 = 0 ∧
      ∃ flac1 s1, parse_metadata 0 initial streaminfo_rate_zero = some (false, flac1, s1) :=
  ⟨by decide, by decide,
    parse_metadata_rate_zero 0 initial streaminfo_rate_zero (by decide) (by decide)⟩

/-! ## The loop over the metadata blocks -/

/-- One pass of the loop on a block whose type is not 2: the block length is skipped. -/
theorem metadata_block_other (flac : Flac) (h l0 l1 l2 : Byte) (s : Stream)
    (hty : h.val &&& 127 ≠ 2) :
    metadata_block flac (h :: l0 :: l1 :: l2 :: s)
      = (decide (h.val &&& 128 ≠ 0), flac, s.drop (be_value [l0, l1, l2])) := by
  have e7 : ONES 7 = 127 := by decide
  have h3 : be_value [l0, l1, l2] % 2 ^ 32 = be_value [l0, l1, l2] :=
    be_value_mod 3 32 _ (by simp) (by decide)
  have hf : (1 <<< 7 &&& h.val) = h.val &&& 128 := by rw [Nat.and_comm]; rfl
  unfold metadata_block
  simp only [read_header_byte, List.headD_cons, e7, hf]
  simp only [read_into_eq, skip_eq_drop, List.drop_succ_cons, List.drop_zero,
    List.take_succ_cons, List.take_zero, h3]
  split <;> first | rfl | exact absurd (by assumption) hty

/-- One pass of the loop on a block of type 2: four bytes are read into `application_id`,
then `block_length - 4` bytes, computed in 32-bit unsigned arithmetic, are skipped. -/
theorem metadata_block_application (flac : Flac) (h l0 l1 l2 : Byte) (s : Stream)
    (hty : h.val &&& 127 = 2) :
    metadata_block flac (h :: l0 :: l1 :: l2 :: s)
      = (decide (h.val &&& 128 ≠ 0), { flac with application_id := be_value (s.take 4) },
          s.drop (4 + (be_value [l0, l1, l2] + (2 ^ 32 - 4)) % 2 ^ 32)) := by
  have e7 : ONES 7 = 127 := by decide
  have h3 : be_value [l0, l1, l2] % 2 ^ 32 = be_value [l0, l1, l2] :=
    be_value_mod 3 32 _ (by simp) (by decide)
  have h4 : be_value (s.take 4) % 2 ^ 32 = be_value (s.take 4) :=
    be_value_mod 4 32 _ (by simp) (by decide)
  have hf : (1 <<< 7 &&& h.val) = h.val &&& 128 := by rw [Nat.and_comm]; rfl
  unfold metadata_block
  simp only [read_header_byte, List.headD_cons, e7, hf, hty]
  simp only [read_into_eq, skip_eq_drop, List.drop_succ_cons, List.drop_zero,
    List.take_succ_cons, List.take_zero, h3, h4, List.drop_drop]

/-- Claim C8: a block in the loop whose type (the low 7 bits of the header byte `h`) is not
2, with declared length `L` (the big-endian value of `l0 l1 l2`) and `L` payload bytes
present, leaves the decoder state as it was and the stream right after the payload, so
that 4 + L bytes are consumed; the loop then goes on from there with the flag of the
header, so that with the flag clear the next header is read at that offset. -/
theorem metadata_block_skips_payload (flac : Flac) (h l0 l1 l2 : Byte) (payload rest : Stream)
    (hty : h.val &&& 127 ≠ 2) (hlen : payload.length = be_value [l0, l1, l2]) :
    metadata_block flac (h :: l0 :: l1 :: l2 :: (payload ++ rest))
        = (decide (h.val &&& 128 ≠ 0), flac, rest) ∧
      (h :: l0 :: l1 :: l2 :: (payload ++ rest)).length
        = (4 + be_value [l0, l1, l2]) + rest.length ∧
      ∀ fuel, parse_metadata_loop (fuel + 1) false flac (h :: l0 :: l1 :: l2 :: (payload ++ rest))
        = parse_metadata_loop fuel (decide (h.val &&& 128 ≠ 0)) flac rest := by
  have hb : metadata_block flac (h :: l0 :: l1 :: l2 :: (payload ++ rest))
      = (decide (h.val &&& 128 ≠ 0), flac, rest) := by
    rw [metadata_block_other flac h l0 l1 l2 _ hty, ← hlen, List.drop_left]
  refine ⟨hb, ?_, ?_⟩
  · simp only [List.length_cons, List.length_append, hlen]
    omega
  · intro fuel
    rw [parse_metadata_loop, hb]

/-- A padding block (type 1, flag clear) of length 10: 14 bytes are consumed and the next
header is read from the byte `0x81` on. -/
theorem metadata_block_skips_payload_witness :
    (((1 : Byte).val &&& 127 ≠ 2) ∧
      ([1, 2, 3, 4, 5, 6, 7, 8, 9, 10] : Stream).length = be_value [0, 0, 10]) ∧
    (metadata_block initial
          (1 :: 0 :: 0 :: 10 :: ([1, 2, 3, 4, 5, 6, 7, 8, 9, 10] ++ [0x81, 0, 0, 0]))
        = (decide ((1 : Byte).val &&& 128 ≠ 0), initial, [0x81, 0, 0, 0]) ∧
      (1 :: 0 :: 0 :: 10 :: ([1, 2, 3, 4, 5, 6, 7, 8, 9, 10] ++ [0x81, 0, 0, 0] : Stream)).length
        = (4 + be_value [0, 0, 10]) + ([0x81, 0, 0, 0] : Stream).length ∧
      ∀ fuel, parse_metadata_loop (fuel + 1) false initial
          (1 :: 0 :: 0 :: 10 :: ([1, 2, 3, 4, 5, 6, 7, 8, 9, 10] ++ [0x81, 0, 0, 0]))
        = parse_metadata_loop fuel (decide ((1 : Byte).val &&& 128 ≠ 0)) initial
            [0x81, 0, 0, 0]) :=
  ⟨by decide, metadata_block_skips_payload initial 1 0 0 10 [1, 2, 3, 4, 5, 6, 7, 8, 9, 10]
    [0x81, 0, 0, 0] (by decide) (by decide)⟩

/-- Claim C9 as stated fails.  On an application block of declared length 0 followed by
eight more bytes, the pass consumes the whole input and not 4 + 0 bytes; on an application
block of declared length 8 with six payload bytes present, it consumes 10 bytes and not
4 + 8. -/
theorem application_block_counterexample :
    (((2 : Byte).val &&& 127 = 2 ∧ be_value [0, 0, 0] = 0) ∧
      (metadata_block initial [2, 0, 0, 0, 1, 2, 3, 4, 0x81, 0, 0, 0]).2.2 = [] ∧
      (metadata_block initial [2, 0, 0, 0, 1, 2, 3, 4, 0x81, 0, 0, 0]).2.2
        ≠ ([2, 0, 0, 0, 1, 2, 3, 4, 0x81, 0, 0, 0] : Stream).drop (4 + be_value [0, 0, 0])) ∧
    (be_value [0, 0, 8] = 8 ∧
      (metadata_block initial [2, 0, 0, 8, 1, 2, 3, 4, 5, 6]).2.2 = [] ∧
      ([2, 0, 0, 8, 1, 2, 3, 4, 5, 6] : Stream).length
          - (metadata_block initial [2, 0, 0, 8, 1, 2, 3, 4, 5, 6]).2.2.length
        ≠ 4 + be_value [0, 0, 8]) := by
  decide

/-- Claim C9, amended: an application block (type 2) in the loop with declared length
`L >= 4` and `L` payload bytes present stores the big-endian value of the first four
payload bytes in `application_id`, changes nothing else, and leaves the stream right after
the payload, so that 4 + L bytes are consumed; the loop then goes on from there with the
flag of the header. -/
theorem metadata_block_application_id (flac : Flac) (h l0 l1 l2 a0 a1 a2 a3 : Byte)
    (payload rest : Stream) (hty : h.val &&& 127 = 2) (hL : 4 ≤ be_value [l0, l1, l2])
    (hlen : payload.length = be_value [l0, l1, l2] - 4) :
    metadata_block flac (h :: l0 :: l1 :: l2 :: a0 :: a1 :: a2 :: a3 :: (payload ++ rest))
        = (decide (h.val &&& 128 ≠ 0),
            { flac with application_id := be_value [a0, a1, a2, a3] }, rest) ∧
      (h :: l0 :: l1 :: l2 :: a0 :: a1 :: a2 :: a3 :: (payload ++ rest)).length
        = (4 + be_value [l0, l1, l2]) + rest.length ∧
      ∀ fuel, parse_metadata_loop (fuel + 1) false flac
          (h :: l0 :: l1 :: l2 :: a0 :: a1 :: a2 :: a3 :: (payload ++ rest))
        = parse_metadata_loop fuel (decide (h.val &&& 128 ≠ 0))
            { flac with application_id := be_value [a0, a1, a2, a3] } rest := by
  have h3 : be_value [l0, l1, l2] < 256 ^ 3 := be_value_lt _
  have hm : (be_value [l0, l1, l2] + (2 ^ 32 - 4)) % 2 ^ 32 = be_value [l0, l1, l2] - 4 := by
    omega
  have hb : metadata_block flac
      (h :: l0 :: l1 :: l2 :: a0 :: a1 :: a2 :: a3 :: (payload ++ rest))
      = (decide (h.val &&& 128 ≠ 0),
          { flac with application_id := be_value [a0, a1, a2, a3] }, rest) := by
    rw [metadata_block_application flac h l0 l1 l2 _ hty, hm, ← hlen]
    simp only [List.take_succ_cons, List.take_zero, List.drop_succ_cons, Nat.add_comm 4,
      List.drop_left]
  refine ⟨hb, ?_, ?_⟩
  · simp only [List.length_cons, List.length_append, hlen]
    omega
  · intro fuel
    rw [parse_metadata_loop, hb]

/-- An application block of length 6 with the id bytes `01 02 03 04`. -/
theorem metadata_block_application_id_witness :
    ((2 : Byte).val &&& 127 = 2 ∧ 4 ≤ be_value [0, 0, 6] ∧
      ([5, 6] : Stream).length = be_value [0, 0, 6] - 4) ∧
    (metadata_block initial (2 :: 0 :: 0 :: 6 :: 1 :: 2 :: 3 :: 4 :: ([5, 6] ++ [0x81, 0, 0, 0]))
        = (decide ((2 : Byte).val &&& 128 ≠ 0),
            { initial with application_id := be_value [1, 2, 3, 4] }, [0x81, 0, 0, 0]) ∧
      (2 :: 0 :: 0 :: 6 :: 1 :: 2 :: 3 :: 4 :: ([5, 6] ++ [0x81, 0, 0, 0] : Stream)).length
        = (4 + be_value [0, 0, 6]) + ([0x81, 0, 0, 0] : Stream).length ∧
      ∀ fuel, parse_metadata_loop (fuel + 1) false initial
          (2 :: 0 :: 0 :: 6 :: 1 :: 2 :: 3 :: 4 :: ([5, 6] ++ [0x81, 0, 0, 0]))
        = parse_metadata_loop fuel (decide ((2 : Byte).val &&& 128 ≠ 0))
            { initial with application_id := be_value [1, 2, 3, 4] } [0x81, 0, 0, 0]) :=
  ⟨by decide, metadata_block_application_id initial 2 0 0 6 1 2 3 4 [5, 6] [0x81, 0, 0, 0]
    (by decide) (by decide) (by decide)⟩

/-! ## The end of the input -/

/-- At the end of the input the loop over the blocks reads a header 0 and a length 0, which
leave the flag clear: no fuel lets it stop. -/
theorem parse_metadata_loop_empty (fuel : Nat) (flac : Flac) :
    parse_metadata_loop fuel false flac [] = none := by
  induction fuel with
  | zero => rfl
  | succ fuel ih =>
    rw [parse_metadata_loop]
    exact ih

/-- Claim C10, at two inputs that end before a byte `parse_metadata` has to read.  On
`streaminfo_truncated`, which ends inside the STREAMINFO payload before the MD5 sum,
`parse_metadata` returns true for every fuel.  On `streaminfo_open`, which ends where the
header of the next block is due, no fuel makes `parse_metadata` return: the claim has it
return false on both. -/
theorem parse_metadata_end_of_input :
    (streaminfo_truncated.length = 22 ∧
      ∀ fuel, (parse_metadata fuel initial streaminfo_truncated).map (fun r => (r.1, r.2.2))
        = some (true, [])) ∧
    (streaminfo_open.length = 38 ∧
      ∀ fuel, parse_metadata fuel initial streaminfo_open = none) := by
  refine ⟨⟨rfl, ?_⟩, ⟨rfl, ?_⟩⟩
  · intro fuel
    cases fuel <;> rfl
  · intro fuel
    have h : parse_metadata fuel initial streaminfo_open
        = match parse_metadata_loop fuel false (parse_streaminfo initial streaminfo_open).flac []
            with
          | none => none
          | some (flac, s) => some (true, flac, s) := rfl
    rw [h, parse_metadata_loop_empty]

/-! ## The orchestrator after a bad sync code -/

/-- Claim C11, at the input made of the marker, the block `streaminfo_example` and the
twelve bytes `frames_bad_sync`: the metadata is accepted, the first call of `parse_frame`
returns false on the word `00 00 00 00` and leaves the eight bytes `01 .. 08` unread, and
`decode` returns with no byte left: the second and the third call of `parse_frame` have
read two more words, where the claim has `decode` stop after the failing word. -/
theorem decode_goes_on_after_bad_sync (fuel : Nat) :
    (parse_metadata fuel initial (streaminfo_example ++ frames_bad_sync)).map
        (fun r => (r.1, r.2.2)) = some (true, frames_bad_sync) ∧
      (∀ flac, (parse_frame fuel flac frames_bad_sync).map (fun r => (r.1, r.2.2))
        = some (false, [1, 2, 3, 4, 5, 6, 7, 8])) ∧
      (decode fuel initial (fLaC_marker ++ streaminfo_example ++ frames_bad_sync)).map
        (fun r => r.2) = some [] := by
  refine ⟨?_, ?_, ?_⟩
  · cases fuel <;> rfl
  · intro flac
    rfl
  · cases fuel <;> rfl

/-! ## The escape codes of the block size -/

/-- Claim C12: on every stream with at least two bytes, `get_blocksize` with code 0x6
returns after consuming exactly the first byte, and with code 0x7 after consuming exactly
the first two bytes; the value returned is the big-endian value of the bytes consumed. -/
theorem get_blocksize_escape_codes (b0 b1 : Byte) (rest : Stream) :
    get_blocksize 6 (b0 :: b1 :: rest) = (b0.val, b1 :: rest) ∧
      get_blocksize 7 (b0 :: b1 :: rest) = (b0.val * 256 + b1.val, rest) := by
  have e6 : get_blocksize 6 (b0 :: b1 :: rest)
      = ((read_into 16 1 (b0 :: b1 :: rest)).2.1, (read_into 16 1 (b0 :: b1 :: rest)).2.2) := rfl
  have e7 : get_blocksize 7 (b0 :: b1 :: rest)
      = ((read_into 16 2 (b0 :: b1 :: rest)).2.1, (read_into 16 2 (b0 :: b1 :: rest)).2.2) := rfl
  have h0 := b0.isLt
  have h1 := b1.isLt
  rw [e6, e7, read_into_eq, read_into_eq]
  simp [be_value, be_acc]
  constructor <;> omega

/-! ## The frame header after the frame word -/

theorem parse_frame_eq (fuel : Nat) (flac : Flac) (s : Stream) :
    parse_frame fuel flac s =
      if be_value (s.take 4) >>> 18 ≠ 0x3FFE then
        some (false,
          { flac with frame := { flac.frame with sync_code := be_value (s.take 4) >>> 18 } },
          s.drop 4)
      else
        match (if (frame_fields { flac.frame with sync_code := be_value (s.take 4) >>> 18 }
              (be_value (s.take 4))).blocking_strategy = true
            then read_into_utf8 fuel 64 (s.drop 4)
            else read_into_utf8 fuel 32 (s.drop 4)) with
        | none => none
        | some u =>
          some (frame_finish flac
            (frame_fields { flac.frame with sync_code := be_value (s.take 4) >>> 18 }
              (be_value (s.take 4))) u) := by
  have hraw : (read_into 32 4 s).2.1 = be_value (s.take 4) := by
    rw [read_into_eq]
    exact be_value_mod 4 32 _ (by simp) (by decide)
  have hd : (read_into 32 4 s).2.2 = s.drop 4 := by rw [read_into_eq]
  have hsync := sync_field_eq s
  rw [hraw] at hsync
  have e : parse_frame fuel flac s =
      if ((((read_into 32 4 s).2.1 >>> 18) &&& ONES 14) % 2 ^ 16) ≠ 0x3FFE then
        some (false,
          { flac with frame := { flac.frame with
              sync_code := (((read_into 32 4 s).2.1 >>> 18) &&& ONES 14) % 2 ^ 16 } },
          (read_into 32 4 s).2.2)
      else
        match (if (frame_fields { flac.frame with
                sync_code := (((read_into 32 4 s).2.1 >>> 18) &&& ONES 14) % 2 ^ 16 }
              ((read_into 32 4 s).2.1)).blocking_strategy = true
            then read_into_utf8 fuel 64 (read_into 32 4 s).2.2
            else read_into_utf8 fuel 32 (read_into 32 4 s).2.2) with
        | none => none
        | some u =>
          some (frame_finish flac
            (frame_fields { flac.frame with
                sync_code := (((read_into 32 4 s).2.1 >>> 18) &&& ONES 14) % 2 ^ 16 }
              ((read_into 32 4 s).2.1)) u) := rfl
  rw [e, hraw, hd, hsync]

theorem resolve_sample_rate_spec (flac_rate : Nat) (frame : Frame) (s : Stream)
    (hc : frame.sample_rate_code ≤ 0xF) :
    ∃ v k, resolve_sample_rate flac_rate frame s = ({ frame with sample_rate := v }, s.drop k) ∧
      (frame.sample_rate_code ≤ 0xB → v = flac_rate ∧ k = 0) ∧
      (frame.sample_rate_code = 0xC → v = be_value (s.take 1) ∧ k = 1) ∧
      (frame.sample_rate_code = 0xD → v = be_value (s.take 2) ∧ k = 2) ∧
      (frame.sample_rate_code = 0xE → v = be_value (s.take 2) * 10 ∧ k = 2) ∧
      (frame.sample_rate_code = 0xF → v = frame.sample_rate ∧ k = 0) := by
  have h1 : be_value (s.take 1) % 2 ^ 32 = be_value (s.take 1) :=
    be_value_mod 1 32 _ (by simp) (by decide)
  have h2 : be_value (s.take 2) % 2 ^ 32 = be_value (s.take 2) :=
    be_value_mod 2 32 _ (by simp) (by decide)
  have h2lt := be_value_take_lt 2 s
  have h10 : be_value (s.take 2) * 10 % 2 ^ 32 = be_value (s.take 2) * 10 := by omega
  unfold resolve_sample_rate
  obtain ⟨f1, f2, f3, f4, c, f6, f7, f8, f9, f10, f11, f12, f13⟩ := frame
  simp only [] at hc ⊢
  interval_cases c
  all_goals simp only [read_into_eq, h1, h2, h10]
  all_goals first
    | exact ⟨flac_rate, 0, rfl, by simp⟩
    | exact ⟨be_value (s.take 1), 1, rfl, by simp⟩
    | exact ⟨be_value (s.take 2), 2, rfl, by simp⟩
    | exact ⟨be_value (s.take 2) * 10, 2, rfl, by simp⟩
    | exact ⟨f12, 0, rfl, by simp⟩

theorem frame_code_lt (raw : Nat) (k : Nat) : ((raw >>> k) &&& ONES 4) % 2 ^ 8 ≤ 0xF := by
  have e : ONES 4 = 2 ^ 4 - 1 := by decide
  rw [e, Nat.and_pow_two_sub_one_eq_mod]
  omega

/-- What `frame_finish` returns, by the stored sample rate code: the block size resolution
runs on the stream left by the number, the sample rate resolution on the stream `t` left
by the block size resolution, and the CRC byte is read last. -/
theorem frame_finish_spec (flac : Flac) (frame : Frame) (u : Bool × Nat × Stream)
    (hc : frame.sample_rate_code ≤ 0xF) :
    ∃ v k, frame_finish flac frame u =
        (true,
          { flac with frame :=
            { frame with
              sf := if frame.blocking_strategy = true then u.2.1
                    else frame.sf / 2 ^ 32 * 2 ^ 32 + u.2.1
              blocksize := (get_blocksize frame.blocksize_code u.2.2).1
              sample_rate := v
              crc8 := be_value ((((get_blocksize frame.blocksize_code u.2.2).2).drop k).take 1) } },
          (((get_blocksize frame.blocksize_code u.2.2).2).drop k).drop 1) ∧
      (frame.sample_rate_code ≤ 0xB → v = flac.sample_rate ∧ k = 0) ∧
      (frame.sample_rate_code = 0xC →
        v = be_value (((get_blocksize frame.blocksize_code u.2.2).2).take 1) ∧ k = 1) ∧
      (frame.sample_rate_code = 0xD →
        v = be_value (((get_blocksize frame.blocksize_code u.2.2).2).take 2) ∧ k = 2) ∧
      (frame.sample_rate_code = 0xE →
        v = be_value (((get_blocksize frame.blocksize_code u.2.2).2).take 2) * 10 ∧ k = 2) ∧
      (frame.sample_rate_code = 0xF → v = frame.sample_rate ∧ k = 0) := by
  have hcrc : ∀ x : Stream, be_value (x.take 1) % 2 ^ 8 = be_value (x.take 1) := fun x =>
    be_value_mod 1 8 _ (by simp) (by decide)
  obtain ⟨f1, f2, bs, f4, c, f6, f7, f8, f9, f10, f11, f12, f13⟩ := frame
  cases bs
  · obtain ⟨v, k, hr, hf⟩ := resolve_sample_rate_spec flac.sample_rate
      ⟨f1, f2, false, f4, c, f6, f7, f8, f9 / 2 ^ 32 * 2 ^ 32 + u.2.1, f10,
        (get_blocksize f4 u.2.2).1, f12, f13⟩ (get_blocksize f4 u.2.2).2 hc
    refine ⟨v, k, ?_, hf⟩
    have key : frame_finish flac ⟨f1, f2, false, f4, c, f6, f7, f8, f9, f10, f11, f12, f13⟩ u
        = (true,
            { flac with frame :=
              { (resolve_sample_rate flac.sample_rate
                  ⟨f1, f2, false, f4, c, f6, f7, f8, f9 / 2 ^ 32 * 2 ^ 32 + u.2.1, f10,
                    (get_blocksize f4 u.2.2).1, f12, f13⟩ (get_blocksize f4 u.2.2).2).1 with
                crc8 := (read_into 8 1 (resolve_sample_rate flac.sample_rate
                  ⟨f1, f2, false, f4, c, f6, f7, f8, f9 / 2 ^ 32 * 2 ^ 32 + u.2.1, f10,
                    (get_blocksize f4 u.2.2).1, f12, f13⟩ (get_blocksize f4 u.2.2).2).2).2.1 } },
            (read_into 8 1 (resolve_sample_rate flac.sample_rate
                  ⟨f1, f2, false, f4, c, f6, f7, f8, f9 / 2 ^ 32 * 2 ^ 32 + u.2.1, f10,
                    (get_blocksize f4 u.2.2).1, f12, f13⟩ (get_blocksize f4 u.2.2).2).2).2.2) :=
      rfl
    rw [key, hr]
    simp only [read_into_eq, hcrc]
    rfl
  · obtain ⟨v, k, hr, hf⟩ := resolve_sample_rate_spec flac.sample_rate
      ⟨f1, f2, true, f4, c, f6, f7, f8, u.2.1, f10,
        (get_blocksize f4 u.2.2).1, f12, f13⟩ (get_blocksize f4 u.2.2).2 hc
    refine ⟨v, k, ?_, hf⟩
    have key : frame_finish flac ⟨f1, f2, true, f4, c, f6, f7, f8, f9, f10, f11, f12, f13⟩ u
        = (true,
            { flac with frame :=
              { (resolve_sample_rate flac.sample_rate
                  ⟨f1, f2, true, f4, c, f6, f7, f8, u.2.1, f10,
                    (get_blocksize f4 u.2.2).1, f12, f13⟩ (get_blocksize f4 u.2.2).2).1 with
                crc8 := (read_into 8 1 (resolve_sample_rate flac.sample_rate
                  ⟨f1, f2, true, f4, c, f6, f7, f8, u.2.1, f10,
                    (get_blocksize f4 u.2.2).1, f12, f13⟩ (get_blocksize f4 u.2.2).2).2).2.1 } },
            (read_into 8 1 (resolve_sample_rate flac.sample_rate
                  ⟨f1, f2, true, f4, c, f6, f7, f8, u.2.1, f10,
                    (get_blocksize f4 u.2.2).1, f12, f13⟩ (get_blocksize f4 u.2.2).2).2).2.2) :=
      rfl
    rw [key, hr]
    simp only [read_into_eq, hcrc]
    rfl

theorem frame_fields_codes (frame : Frame) (raw : Nat) :
    (frame_fields frame raw).sample_rate_code = ((raw >>> 4) &&& ONES 4) % 2 ^ 8 ∧
      (frame_fields frame raw).blocksize_code = ((raw >>> 8) &&& ONES 4) % 2 ^ 8 ∧
      (frame_fields frame raw).sample_rate = frame.sample_rate :=
  ⟨rfl, rfl, rfl⟩

/-- The resolutions in every frame that `parse_frame` accepts: the number `u` is read
right after the four bytes of the frame word, the block size is resolved from the stored
`blocksize_code` on the stream the number left, the sample rate from the stored
`sample_rate_code` on the stream `t` the block size resolution left, and the CRC byte is
read last. -/
theorem parse_frame_resolution (fuel : Nat) (flac flac1 : Flac) (s s1 : Stream)
    (h : parse_frame fuel flac s = some (true, flac1, s1)) :
    ∃ (w : Nat) (u : Bool × Nat × Stream) (t : Stream),
      (w = 32 ∨ w = 64) ∧ read_into_utf8 fuel w (s.drop 4) = some u ∧
      get_blocksize flac1.frame.blocksize_code u.2.2 = (flac1.frame.blocksize, t) ∧
      flac1.frame.sample_rate_code ≤ 0xF ∧
      (flac1.frame.sample_rate_code ≤ 0xB →
        flac1.frame.sample_rate = flac.sample_rate ∧
          flac1.frame.crc8 = be_value (t.take 1) ∧ s1 = t.drop 1) ∧
      (flac1.frame.sample_rate_code = 0xC →
        flac1.frame.sample_rate = be_value (t.take 1) ∧
          flac1.frame.crc8 = be_value ((t.drop 1).take 1) ∧ s1 = (t.drop 1).drop 1) ∧
      (flac1.frame.sample_rate_code = 0xD →
        flac1.frame.sample_rate = be_value (t.take 2) ∧
          flac1.frame.crc8 = be_value ((t.drop 2).take 1) ∧ s1 = (t.drop 2).drop 1) ∧
      (flac1.frame.sample_rate_code = 0xE →
        flac1.frame.sample_rate = be_value (t.take 2) * 10 ∧
          flac1.frame.crc8 = be_value ((t.drop 2).take 1) ∧ s1 = (t.drop 2).drop 1) ∧
      (flac1.frame.sample_rate_code = 0xF →
        flac1.frame.sample_rate = flac.frame.sample_rate ∧
          flac1.frame.crc8 = be_value (t.take 1) ∧ s1 = t.drop 1) := by
  rw [parse_frame_eq] at h
  split at h
  · simp at h
  · generalize hF : frame_fields { flac.frame with sync_code := be_value (s.take 4) >>> 18 }
      (be_value (s.take 4)) = F at h
    obtain ⟨hF1, hF2, hF3⟩ := frame_fields_codes
      { flac.frame with sync_code := be_value (s.take 4) >>> 18 } (be_value (s.take 4))
    rw [hF] at hF1 hF2 hF3
    have hc : F.sample_rate_code ≤ 0xF := by rw [hF1]; exact frame_code_lt _ _
    split at h
    · simp at h
    · rename_i u hu
      obtain ⟨v, k, hff, g1, g2, g3, g4, g5⟩ := frame_finish_spec flac F u hc
      rw [hff] at h
      simp only [Option.some.injEq, Prod.mk.injEq, true_and] at h
      obtain ⟨rfl, rfl⟩ := h
      refine ⟨if F.blocking_strategy = true then 64 else 32, u, _, ?_, ?_, rfl, hc,
        ?_, ?_, ?_, ?_, ?_⟩
      · split <;> simp
      · rw [← hu]
        split <;> rfl
      · intro hh
        obtain ⟨rfl, rfl⟩ := g1 hh
        exact ⟨rfl, rfl, rfl⟩
      · intro hh
        obtain ⟨rfl, rfl⟩ := g2 hh
        exact ⟨rfl, rfl, rfl⟩
      · intro hh
        obtain ⟨rfl, rfl⟩ := g3 hh
        exact ⟨rfl, rfl, rfl⟩
      · intro hh
        obtain ⟨rfl, rfl⟩ := g4 hh
        exact ⟨rfl, rfl, rfl⟩
      · intro hh
        obtain ⟨rfl, rfl⟩ := g5 hh
        exact ⟨hF3, rfl, rfl⟩

/-! ## Block size code 0x1 -/

/-- Claim C13: `get_blocksize` with code 0x1 returns 192 and leaves the stream `s` as it
is, whatever `s` holds; and in every frame that `parse_frame` accepts on an input `input`
with the stored `blocksize_code` equal to 1, the resolved block size is 192 and the
resolution has consumed no byte of the stream `u.2.2` that the frame number left. -/
theorem get_blocksize_code_1 (s input : Stream) :
    get_blocksize 1 s = (192, s) ∧
      ∀ fuel flac flac1 s1, parse_frame fuel flac input = some (true, flac1, s1) →
        flac1.frame.blocksize_code = 1 →
        flac1.frame.blocksize = 192 ∧
          ∃ (w : Nat) (u : Bool × Nat × Stream), (w = 32 ∨ w = 64) ∧
            read_into_utf8 fuel w (input.drop 4) = some u ∧
            get_blocksize flac1.frame.blocksize_code u.2.2 = (192, u.2.2) := by
  refine ⟨rfl, ?_⟩
  intro fuel flac flac1 s1 h hb
  obtain ⟨w, u, t, hw, hu, hg, -⟩ := parse_frame_resolution fuel flac flac1 input s1 h
  rw [hb] at hg
  have h1 : get_blocksize 1 u.2.2 = (192, u.2.2) := rfl
  rw [h1] at hg
  have hbs : flac1.frame.blocksize = 192 := (congrArg Prod.fst hg).symm
  refine ⟨hbs, w, u, hw, hu, ?_⟩
  rw [hb]
  rfl

/-- The frame header `frame_blocksize_example`, with sync `0x3FFE`, fixed blocking strategy
and stored block size code 1: the block size is 192 and the six bytes read are the frame
word, the frame number and the CRC byte. -/
theorem get_blocksize_code_1_witness :
    (get_blocksize 1 [0xDE, 0xAD] = (192, [0xDE, 0xAD]) ∧
      ∀ fuel flac flac1 s1,
        parse_frame fuel flac frame_blocksize_example = some (true, flac1, s1) →
        flac1.frame.blocksize_code = 1 →
        flac1.frame.blocksize = 192 ∧
          ∃ (w : Nat) (u : Bool × Nat × Stream), (w = 32 ∨ w = 64) ∧
            read_into_utf8 fuel w (frame_blocksize_example.drop 4) = some u ∧
            get_blocksize flac1.frame.blocksize_code u.2.2 = (192, u.2.2)) ∧
    (parse_frame 1 initial frame_blocksize_example).map
        (fun r => (r.1, r.2.1.frame.sync_code, r.2.1.frame.blocking_strategy,
          r.2.1.frame.blocksize_code, r.2.1.frame.blocksize, r.2.2))
      = some (true, 0x3FFE, false, 1, 192, []) :=
  ⟨get_blocksize_code_1 [0xDE, 0xAD] frame_blocksize_example, by rfl⟩

/-! ## Sample rate resolution -/

/-- Claim C14: in every frame that `parse_frame` accepts, with `t` the stream left by the
block size resolution, the stored `sample_rate_code` is at most 0xF and decides the
frame's sample rate: for 0x0..0xB it is the stream-info sample rate and the next byte of
`t` is the CRC byte; for 0xC it is the first byte of `t`, for 0xD the big-endian value of
the first two bytes of `t`, for 0xE ten times that value, and the CRC byte is the byte
after them; for 0xF it is the frame's sample rate from before the call and the next byte
of `t` is the CRC byte. -/
theorem parse_frame_sample_rate (fuel : Nat) (flac flac1 : Flac) (s s1 : Stream)
    (h : parse_frame fuel flac s = some (true, flac1, s1)) :
    ∃ (w : Nat) (u : Bool × Nat × Stream) (t : Stream),
      (w = 32 ∨ w = 64) ∧ read_into_utf8 fuel w (s.drop 4) = some u ∧
      t = (get_blocksize flac1.frame.blocksize_code u.2.2).2 ∧
      flac1.frame.sample_rate_code ≤ 0xF ∧
      (flac1.frame.sample_rate_code ≤ 0xB →
        flac1.frame.sample_rate = flac.sample_rate ∧
          flac1.frame.crc8 = be_value (t.take 1) ∧ s1 = t.drop 1) ∧
      (flac1.frame.sample_rate_code = 0xC →
        flac1.frame.sample_rate = be_value (t.take 1) ∧
          flac1.frame.crc8 = be_value ((t.drop 1).take 1) ∧ s1 = (t.drop 1).drop 1) ∧
      (flac1.frame.sample_rate_code = 0xD →
        flac1.frame.sample_rate = be_value (t.take 2) ∧
          flac1.frame.crc8 = be_value ((t.drop 2).take 1) ∧ s1 = (t.drop 2).drop 1) ∧
      (flac1.frame.sample_rate_code = 0xE →
        flac1.frame.sample_rate = be_value (t.take 2) * 10 ∧
          flac1.frame.crc8 = be_value ((t.drop 2).take 1) ∧ s1 = (t.drop 2).drop 1) ∧
      (flac1.frame.sample_rate_code = 0xF →
        flac1.frame.sample_rate = flac.frame.sample_rate ∧
          flac1.frame.crc8 = be_value (t.take 1) ∧ s1 = t.drop 1) := by
  obtain ⟨w, u, t, hw, hu, hg, hrest⟩ := parse_frame_resolution fuel flac flac1 s s1 h
  exact ⟨w, u, t, hw, hu, (congrArg Prod.snd hg).symm, hrest⟩

/-- The frame header `frame_rate_example`, whose stored sample rate code is `0xC`: the
frame is accepted with the sample rate 44 read from one escape byte. -/
theorem parse_frame_sample_rate_witness :
    parse_frame 1 initial frame_rate_example = some (true, frame_rate_example_state, [9]) ∧
    ∃ (w : Nat) (u : Bool × Nat × Stream) (t : Stream),
      (w = 32 ∨ w = 64) ∧ read_into_utf8 1 w (frame_rate_example.drop 4) = some u ∧
      t = (get_blocksize frame_rate_example_state.frame.blocksize_code u.2.2).2 ∧
      frame_rate_example_state.frame.sample_rate_code ≤ 0xF ∧
      (frame_rate_example_state.frame.sample_rate_code ≤ 0xB →
        frame_rate_example_state.frame.sample_rate = initial.sample_rate ∧
          frame_rate_example_state.frame.crc8 = be_value (t.take 1) ∧ [9] = t.drop 1) ∧
      (frame_rate_example_state.frame.sample_rate_code = 0xC →
        frame_rate_example_state.frame.sample_rate = be_value (t.take 1) ∧
          frame_rate_example_state.frame.crc8 = be_value ((t.drop 1).take 1) ∧
          [9] = (t.drop 1).drop 1) ∧
      (frame_rate_example_state.frame.sample_rate_code = 0xD →
        frame_rate_example_state.frame.sample_rate = be_value (t.take 2) ∧
          frame_rate_example_state.frame.crc8 = be_value ((t.drop 2).take 1) ∧
          [9] = (t.drop 2).drop 1) ∧
      (frame_rate_example_state.frame.sample_rate_code = 0xE →
        frame_rate_example_state.frame.sample_rate = be_value (t.take 2) * 10 ∧
          frame_rate_example_state.frame.crc8 = be_value ((t.drop 2).take 1) ∧
          [9] = (t.drop 2).drop 1) ∧
      (frame_rate_example_state.frame.sample_rate_code = 0xF →
        frame_rate_example_state.frame.sample_rate = initial.frame.sample_rate ∧
          frame_rate_example_state.frame.crc8 = be_value (t.take 1) ∧ [9] = t.drop 1) :=
  ⟨by rfl, parse_frame_sample_rate 1 initial frame_rate_example_state frame_rate_example [9]
    (by rfl)⟩

/-! ## The whole STREAMINFO block -/

/-- The outcome of the first block of `parse_metadata` on a block of type 0 with a nonzero
sample rate field, field by field. -/
theorem parse_streaminfo_eq (flac : Flac) (s : Stream)
    (hty : (s.headD 0).val &&& 127 = 0) (hsr : be_value ((s.drop 14).take 8) >>> 44 ≠ 0) :
    parse_streaminfo flac s =
      ⟨true, decide ((s.headD 0).val &&& 128 ≠ 0),
        { flac with
          min_block_length := be_value ((s.drop 4).take 2)
          max_block_length := be_value ((s.drop 6).take 2)
          variable_blocksize :=
            if be_value ((s.drop 4).take 2) ≠ be_value ((s.drop 6).take 2) then true
            else flac.variable_blocksize
          min_frame_size := be_value ((s.drop 8).take 3)
          max_frame_size := be_value ((s.drop 11).take 3)
          sample_rate := be_value ((s.drop 14).take 8) >>> 44
          n_channels := ((be_value ((s.drop 14).take 8) >>> 41) &&& 7) + 1
          bits_per_sample := ((be_value ((s.drop 14).take 8) >>> 36) &&& 31) + 1
          n_samples := be_value ((s.drop 14).take 8) &&& (2 ^ 36 - 1)
          md5sum_a := be_value ((s.drop 22).take 8)
          md5sum_b := be_value ((s.drop 30).take 8) },
        s.drop 38⟩ := by
  have ht := be_value_take_lt 8 (s.drop 14)
  obtain ⟨a1, a2, a3, a4⟩ := packed_field_arith _ ht
  have e7 : ONES 7 = 127 := by decide
  have m2 : ∀ x : Stream, be_value (x.take 2) % 2 ^ 16 = be_value (x.take 2) := fun x =>
    be_value_mod 2 16 _ (by simp) (by decide)
  have m3 : ∀ x : Stream, be_value (x.take 3) % 2 ^ 32 = be_value (x.take 3) := fun x =>
    be_value_mod 3 32 _ (by simp) (by decide)
  have m8 : ∀ x : Stream, be_value (x.take 8) % 2 ^ 64 = be_value (x.take 8) := fun x =>
    be_value_mod 8 64 _ (by simp) (by decide)
  have hf : (1 <<< 7 &&& (s.headD 0).val) = (s.headD 0).val &&& 128 := by
    rw [Nat.and_comm]; rfl
  unfold parse_streaminfo
  simp only [read_header_byte, e7, hty, hf]
  simp only [read_into_eq, List.drop_drop, Nat.reduceAdd] at a1 a2 a3 a4 ⊢
  rw [if_neg (by simp), a1, if_neg hsr]
  simp only [m2, m3, m8] at a2 a3 a4 ⊢
  rw [a2, a3, a4]
  by_cases hv : be_value (List.take 2 (List.drop 4 s)) = be_value (List.take 2 (List.drop 6 s))
  · simp only [hv, ne_eq, not_true_eq_false, if_false]
  · simp only [hv, ne_eq, not_false_eq_true, if_true]

theorem parse_metadata_eq (fuel : Nat) (flac : Flac) (s : Stream)
    (hty : (s.headD 0).val &&& 127 = 0) (hsr : be_value ((s.drop 14).take 8) >>> 44 ≠ 0) :
    parse_metadata fuel flac s =
      (parse_metadata_loop fuel (decide ((s.headD 0).val &&& 128 ≠ 0))
        (parse_streaminfo flac s).flac (s.drop 38)).map (fun r => (true, r.1, r.2)) := by
  obtain ⟨h1, h2, h3, -⟩ := parse_streaminfo_type0 flac s hty hsr
  unfold parse_metadata
  simp only [h1, if_true, h2, h3]
  cases parse_metadata_loop fuel (decide ((s.headD 0).val &&& 128 ≠ 0))
    (parse_streaminfo flac s).flac (s.drop 38) <;> rfl

/-- Claim C15: for a decoder in the reset state (`reset_metadata` of any state) and an
input whose first block has type 0 and a nonzero sample rate field, the STREAMINFO part
stores the two block lengths and `variable_blocksize` is true exactly when they differ;
every result of `parse_metadata` is true and has the flag false when
`min_block_length = max_block_length` and true otherwise; with the last-block flag set
`parse_metadata` returns for every fuel. -/
theorem variable_blocksize_flag (f0 : Flac) (s : Stream)
    (hty : (s.headD 0).val &&& 127 = 0) (hsr : be_value ((s.drop 14).take 8) >>> 44 ≠ 0) :
    ((parse_streaminfo (reset_metadata f0) s).flac.min_block_length
        = be_value ((s.drop 4).take 2) ∧
      (parse_streaminfo (reset_metadata f0) s).flac.max_block_length
        = be_value ((s.drop 6).take 2) ∧
      (parse_streaminfo (reset_metadata f0) s).flac.variable_blocksize
        = decide (be_value ((s.drop 4).take 2) ≠ be_value ((s.drop 6).take 2))) ∧
    (∀ fuel r, parse_metadata fuel (reset_metadata f0) s = some r →
      r.1 = true ∧
        r.2.1.variable_blocksize
          = decide (r.2.1.min_block_length ≠ r.2.1.max_block_length)) ∧
    ((s.headD 0).val &&& 128 ≠ 0 →
      ∀ fuel, ∃ r, parse_metadata fuel (reset_metadata f0) s = some r) := by
  have he := parse_streaminfo_eq (reset_metadata f0) s hty hsr
  have hfl : (parse_streaminfo (reset_metadata f0) s).flac.min_block_length
        = be_value ((s.drop 4).take 2) ∧
      (parse_streaminfo (reset_metadata f0) s).flac.max_block_length
        = be_value ((s.drop 6).take 2) ∧
      (parse_streaminfo (reset_metadata f0) s).flac.variable_blocksize
        = decide (be_value ((s.drop 4).take 2) ≠ be_value ((s.drop 6).take 2)) := by
    rw [he]
    refine ⟨rfl, rfl, ?_⟩
    by_cases hv : be_value ((s.drop 4).take 2) = be_value ((s.drop 6).take 2)
    · simp [hv, reset_metadata]
    · simp [hv]
  refine ⟨hfl, ?_, ?_⟩
  · intro fuel r hr
    rw [parse_metadata_eq fuel _ s hty hsr] at hr
    cases hl : parse_metadata_loop fuel (decide ((s.headD 0).val &&& 128 ≠ 0))
      (parse_streaminfo (reset_metadata f0) s).flac (s.drop 38) with
    | none => rw [hl] at hr; simp at hr
    | some q =>
      rw [hl] at hr
      simp only [Option.map_some', Option.some.injEq] at hr
      obtain ⟨a, ha⟩ := parse_metadata_loop_flac _ _ _ _ _ hl
      subst hr
      simp only []
      rw [ha]
      simp only []
      obtain ⟨g1, g2, g3⟩ := hfl
      rw [g1, g2, g3]
      trivial
  · intro hl fuel
    rw [parse_metadata_eq fuel _ s hty hsr]
    simp only [hl, ne_eq, not_false_eq_true, decide_True]
    cases fuel <;> exact ⟨_, rfl⟩

/-- The block `streaminfo_example`, whose block lengths are both 4096, gives the flag
false; the block `streaminfo_variable`, with the lengths 1024 and 4096, gives it true. -/
theorem variable_blocksize_flag_witness :
    ((streaminfo_example.headD 0).val &&& 127 = 0 ∧
      be_value ((streaminfo_example.drop 14).take 8) >>> 44 ≠ 0) ∧
    (((parse_streaminfo (reset_metadata initial) streaminfo_example).flac.min_block_length
        = be_value ((streaminfo_example.drop 4).take 2) ∧
      (parse_streaminfo (reset_metadata initial) streaminfo_example).flac.max_block_length
        = be_value ((streaminfo_example.drop 6).take 2) ∧
      (parse_streaminfo (reset_metadata initial) streaminfo_example).flac.variable_blocksize
        = decide (be_value ((streaminfo_example.drop 4).take 2)
            ≠ be_value ((streaminfo_example.drop 6).take 2))) ∧
    (∀ fuel r, parse_metadata fuel (reset_metadata initial) streaminfo_example = some r →
      r.1 = true ∧
        r.2.1.variable_blocksize
          = decide (r.2.1.min_block_length ≠ r.2.1.max_block_length)) ∧
    ((streaminfo_example.headD 0).val &&& 128 ≠ 0 →
      ∀ fuel, ∃ r, parse_metadata fuel (reset_metadata initial) streaminfo_example = some r)) ∧
    (parse_metadata 0 (reset_metadata initial) streaminfo_example).map
        (fun r => (r.1, r.2.1.min_block_length, r.2.1.max_block_length,
          r.2.1.variable_blocksize)) = some (true, 4096, 4096, false) ∧
    (parse_metadata 0 (reset_metadata initial) streaminfo_variable).map
        (fun r => (r.1, r.2.1.min_block_length, r.2.1.max_block_length,
          r.2.1.variable_blocksize)) = some (true, 1024, 4096, true) :=
  ⟨by decide, variable_blocksize_flag initial streaminfo_example (by decide) (by decide),
    by rfl, by rfl⟩

/-! ## The bits-per-sample code -/

/-- One pass of the loop over the metadata blocks, on any input: the flag is bit 7 of the
header byte, the state changes only for type 2, and the stream left is a suffix. -/
theorem metadata_block_eq (flac : Flac) (s : Stream) :
    metadata_block flac s =
      (decide ((s.headD 0).val &&& 128 ≠ 0),
        (if (s.headD 0).val &&& 127 = 2 then
          { flac with application_id := be_value ((s.drop 4).take 4) }
        else flac),
        s.drop (if (s.headD 0).val &&& 127 = 2 then
            8 + (be_value ((s.drop 1).take 3) + (2 ^ 32 - 4)) % 2 ^ 32
          else 4 + be_value ((s.drop 1).take 3))) := by
  have e7 : ONES 7 = 127 := by decide
  have m3 : ∀ x : Stream, be_value (x.take 3) % 2 ^ 32 = be_value (x.take 3) := fun x =>
    be_value_mod 3 32 _ (by simp) (by decide)
  have m4 : ∀ x : Stream, be_value (x.take 4) % 2 ^ 32 = be_value (x.take 4) := fun x =>
    be_value_mod 4 32 _ (by simp) (by decide)
  have hf : (1 <<< 7 &&& (s.headD 0).val) = (s.headD 0).val &&& 128 := by
    rw [Nat.and_comm]; rfl
  unfold metadata_block
  simp only [read_header_byte, e7, hf]
  simp only [read_into_eq, skip_eq_drop, List.drop_drop, m3, m4, Nat.reduceAdd]
  split <;> simp_all

theorem metadata_block_bits (flac : Flac) (x : Nat) (s : Stream) :
    metadata_block { flac with bits_per_sample := x } s
      = ((metadata_block flac s).1, { (metadata_block flac s).2.1 with bits_per_sample := x },
          (metadata_block flac s).2.2) := by
  rw [metadata_block_eq, metadata_block_eq]
  by_cases h : (s.headD 0).val &&& 127 = 2
  · simp only [h, if_true]
  · simp only [h, if_false]

theorem parse_metadata_loop_bits (fuel : Nat) (flag : Bool) (flac : Flac) (x : Nat)
    (s : Stream) :
    parse_metadata_loop fuel flag { flac with bits_per_sample := x } s
      = (parse_metadata_loop fuel flag flac s).map
          (fun r => ({ r.1 with bits_per_sample := x }, r.2)) := by
  induction fuel generalizing flag flac s with
  | zero => cases flag <;> rfl
  | succ fuel ih =>
    cases flag
    · rw [parse_metadata_loop, parse_metadata_loop, metadata_block_bits]
      exact ih _ _ _
    · rfl

theorem slice_append (head rest : Stream) (k n : Nat) (h : k + n ≤ head.length) :
    ((head ++ rest).drop k).take n = (head.drop k).take n := by
  rw [List.drop_append_of_le_length (by omega),
    List.take_append_of_le_length (by rw [List.length_drop]; omega)]

/-- The slices of an input made of 14 bytes `head`, the 8 bytes `tb` of the packed field
and the bytes `post`. -/
theorem streaminfo_slices (head tb post : Stream) (hhead : head.length = 14)
    (htb : tb.length = 8) :
    (head ++ tb ++ post).headD 0 = head.headD 0 ∧
      ((head ++ tb ++ post).drop 4).take 2 = (head.drop 4).take 2 ∧
      ((head ++ tb ++ post).drop 6).take 2 = (head.drop 6).take 2 ∧
      ((head ++ tb ++ post).drop 8).take 3 = (head.drop 8).take 3 ∧
      ((head ++ tb ++ post).drop 11).take 3 = (head.drop 11).take 3 ∧
      ((head ++ tb ++ post).drop 14).take 8 = tb ∧
      (head ++ tb ++ post).drop 22 = post := by
  have e : head ++ tb ++ post = head ++ (tb ++ post) := List.append_assoc _ _ _
  have e22 : head ++ tb ++ post = (head ++ tb) ++ post := rfl
  refine ⟨?_, ?_, ?_, ?_, ?_, ?_, ?_⟩
  · cases head with
    | nil => simp at hhead
    | cons b head => rfl
  · rw [e, slice_append _ _ _ _ (by omega)]
  · rw [e, slice_append _ _ _ _ (by omega)]
  · rw [e, slice_append _ _ _ _ (by omega)]
  · rw [e, slice_append _ _ _ _ (by omega)]
  · rw [e, List.drop_left' hhead, List.take_left' htb]
  · rw [e22, List.drop_left' (by rw [List.length_append]; omega)]

/-- Claim C16: take two inputs made of the same 14 bytes `head` (block header of type 0,
block lengths, frame sizes), packed fields `tb1` and `tb` that agree outside the 5 bits of
the bits-per-sample code (bits 40..36), the sample rate being nonzero, and the same bytes
`post`.  For every fuel `parse_metadata` gives on both the same outcome: both return or
neither does, with the same return value, the same stream left and the same decoder state
apart from `bits_per_sample`.  Every result on the input with `tb` is true and stores
`bits_per_sample = c + 1` for the code `c = (t >> 36) & 31` of `tb`, whatever `c` is. -/
theorem bits_per_sample_not_fatal (flac : Flac) (head tb tb1 post : Stream)
    (hhead : head.length = 14) (htb : tb.length = 8) (htb1 : tb1.length = 8)
    (hty : (head.headD 0).val &&& 127 = 0) (hsr : be_value tb >>> 44 ≠ 0)
    (hhi : be_value tb1 >>> 41 = be_value tb >>> 41)
    (hlo : be_value tb1 % 2 ^ 36 = be_value tb % 2 ^ 36) (fuel : Nat) :
    (parse_metadata fuel flac (head ++ tb1 ++ post)).map
        (fun r => (r.1, { r.2.1 with bits_per_sample := 0 }, r.2.2))
      = (parse_metadata fuel flac (head ++ tb ++ post)).map
        (fun r => (r.1, { r.2.1 with bits_per_sample := 0 }, r.2.2)) ∧
    ∀ r, parse_metadata fuel flac (head ++ tb ++ post) = some r →
      r.1 = true ∧ r.2.1.bits_per_sample = ((be_value tb >>> 36) &&& 31) + 1 := by
  obtain ⟨s0, s1, s2, s3, s4, s5, s6⟩ := streaminfo_slices head tb post hhead htb
  obtain ⟨p0, p1, p2, p3, p4, p5, p6⟩ := streaminfo_slices head tb1 post hhead htb1
  have h44 : be_value tb1 >>> 44 = be_value tb >>> 44 := by
    have e : ∀ x : Nat, x >>> 44 = (x >>> 41) >>> 3 := fun x => by
      rw [← Nat.shiftRight_add]
    rw [e, e (be_value tb), hhi]
  have h36 : be_value tb1 &&& (2 ^ 36 - 1) = be_value tb &&& (2 ^ 36 - 1) := by
    rw [Nat.and_pow_two_sub_one_eq_mod, Nat.and_pow_two_sub_one_eq_mod, hlo]
  have hty0 : ((head ++ tb ++ post).headD 0).val &&& 127 = 0 := by rw [s0]; exact hty
  have hty1 : ((head ++ tb1 ++ post).headD 0).val &&& 127 = 0 := by rw [p0]; exact hty
  have hsr0 : be_value (((head ++ tb ++ post).drop 14).take 8) >>> 44 ≠ 0 := by
    rw [s5]; exact hsr
  have hsr1 : be_value (((head ++ tb1 ++ post).drop 14).take 8) >>> 44 ≠ 0 := by
    rw [p5, h44]; exact hsr
  have d38 : ∀ x : Stream, x.drop 38 = (x.drop 22).drop 16 := fun x => by
    rw [List.drop_drop]
  have d30 : ∀ x : Stream, x.drop 30 = (x.drop 22).drop 8 := fun x => by
    rw [List.drop_drop]
  have hF : (parse_streaminfo flac (head ++ tb1 ++ post)).flac
      = { (parse_streaminfo flac (head ++ tb ++ post)).flac with
          bits_per_sample := ((be_value tb1 >>> 36) &&& 31) + 1 } := by
    rw [parse_streaminfo_eq flac _ hty1 hsr1, parse_streaminfo_eq flac _ hty0 hsr0]
    simp only [d30, s1, s2, s3, s4, s5, s6, p1, p2, p3, p4, p5, p6, h44, h36, hhi]
  have hB : (parse_streaminfo flac (head ++ tb ++ post)).flac.bits_per_sample
      = ((be_value tb >>> 36) &&& 31) + 1 := by
    rw [parse_streaminfo_eq flac _ hty0 hsr0, s5]
  constructor
  · rw [parse_metadata_eq fuel flac _ hty1 hsr1, parse_metadata_eq fuel flac _ hty0 hsr0, hF,
      parse_metadata_loop_bits, d38, d38 (head ++ tb ++ post), s6, p6, s0, p0]
    cases parse_metadata_loop fuel (decide ((head.headD 0).val &&& 128 ≠ 0))
      (parse_streaminfo flac (head ++ tb ++ post)).flac (post.drop 16) <;> rfl
  · intro r hr
    rw [parse_metadata_eq fuel flac _ hty0 hsr0] at hr
    cases hl : parse_metadata_loop fuel (decide (((head ++ tb ++ post).headD 0).val &&& 128 ≠ 0))
      (parse_streaminfo flac (head ++ tb ++ post)).flac ((head ++ tb ++ post).drop 38) with
    | none => rw [hl] at hr; simp at hr
    | some q =>
      rw [hl] at hr
      simp only [Option.map_some', Option.some.injEq] at hr
      obtain ⟨a, ha⟩ := parse_metadata_loop_flac _ _ _ _ _ hl
      subst hr
      simp only []
      rw [ha]
      exact ⟨trivial, hB⟩

/-- The codes 0 and 15 in the block `streaminfo_example`: with the code 0 the stored
`bits_per_sample` is 1, outside 4..32, and `parse_metadata` returns true as it does with
the code 15. -/
theorem bits_per_sample_not_fatal_witness :
    ((streaminfo_example.take 14).length = 14 ∧ packed_bits_code_0.length = 8 ∧
      packed_bits_code_15.length = 8 ∧
      ((streaminfo_example.take 14).headD 0).val &&& 127 = 0 ∧
      be_value packed_bits_code_0 >>> 44 ≠ 0 ∧
      be_value packed_bits_code_15 >>> 41 = be_value packed_bits_code_0 >>> 41 ∧
      be_value packed_bits_code_15 % 2 ^ 36 = be_value packed_bits_code_0 % 2 ^ 36) ∧
    ((parse_metadata 0 initial
          (streaminfo_example.take 14 ++ packed_bits_code_15 ++ List.replicate 16 0)).map
        (fun r => (r.1, { r.2.1 with bits_per_sample := 0 }, r.2.2))
      = (parse_metadata 0 initial
          (streaminfo_example.take 14 ++ packed_bits_code_0 ++ List.replicate 16 0)).map
        (fun r => (r.1, { r.2.1 with bits_per_sample := 0 }, r.2.2)) ∧
    ∀ r, parse_metadata 0 initial
        (streaminfo_example.take 14 ++ packed_bits_code_0 ++ List.replicate 16 0) = some r →
      r.1 = true ∧ r.2.1.bits_per_sample = ((be_value packed_bits_code_0 >>> 36) &&& 31) + 1) ∧
    (parse_metadata 0 initial
          (streaminfo_example.take 14 ++ packed_bits_code_0 ++ List.replicate 16 0)).map
        (fun r => (r.1, r.2.1.bits_per_sample, r.2.2)) = some (true, 1, []) :=
  ⟨by decide,
    bits_per_sample_not_fatal initial (streaminfo_example.take 14) packed_bits_code_0
      packed_bits_code_15 (List.replicate 16 0) (by decide) (by decide) (by decide) (by decide)
      (by decide) (by decide) (by decide) 0,
    by rfl⟩

/-! ## The value read by `read_into` -/

theorem be_value_cons (b : Byte) (bs : List Byte) :
    be_value (b :: bs) = b.val * 256 ^ bs.length + be_value bs := by
  rw [be_value, be_acc_cons, be_acc_eq]
  simp

theorem be_value_eq_sum (bs : List Byte) :
    be_value bs = ∑ i : Fin bs.length, (bs.get i).val * 256 ^ (bs.length - 1 - i.val) := by
  induction bs with
  | nil => rfl
  | cons b bs ih =>
    rw [be_value_cons, ih]
    simp only [List.length_cons]
    rw [Fin.sum_univ_succ]
    simp only [List.get_eq_getElem, Fin.val_zero, List.getElem_cons_zero, Fin.val_succ,
      List.getElem_cons_succ, Nat.add_sub_cancel, Nat.sub_zero]
    congr 1
    apply Finset.sum_congr rfl
    intro i _
    congr 2
    omega

/-- Claim C17: for a destination of `w` bits and a count `n` with `8 * n <= w`, on every
input that starts with `n` bytes `bs`, `read_into` returns success, leaves exactly the
bytes after `bs` and sets the destination to the sum of `b_i * 256 ^ (n - 1 - i)`; on
every input with fewer than `n` bytes it returns failure. -/
theorem read_into_msb_first (w n : Nat) (hw : 8 * n ≤ w) :
    (∀ bs rest : Stream, bs.length = n →
      read_into w n (bs ++ rest)
        = (true, ∑ i : Fin bs.length, (bs.get i).val * 256 ^ (n - 1 - i.val), rest)) ∧
    (∀ s : Stream, s.length < n → (read_into w n s).1 = false) := by
  constructor
  · intro bs rest hn
    subst hn
    rw [read_into_eq, List.take_left' rfl, List.drop_left' rfl,
      be_value_mod bs.length w bs (le_refl _) hw, be_value_eq_sum]
    simp
  · intro s hs
    rw [read_into_eq]
    simp only [decide_eq_false_iff_not, not_le]
    exact hs

/-- Three bytes read into a 32-bit destination, and a read of three bytes from two. -/
theorem read_into_msb_first_witness :
    8 * 3 ≤ 32 ∧
      read_into 32 3 ([0x12, 0x34, 0x56] ++ [0x78])
        = (true, ∑ i : Fin ([0x12, 0x34, 0x56] : Stream).length,
            (([0x12, 0x34, 0x56] : Stream).get i).val * 256 ^ (3 - 1 - i.val), [0x78]) ∧
      (read_into 32 3 [0x12, 0x34]).1 = false :=
  ⟨by decide, (read_into_msb_first 32 3 (by decide)).1 [0x12, 0x34, 0x56] [0x78] rfl,
    (read_into_msb_first 32 3 (by decide)).2 [0x12, 0x34] (by decide)⟩

/-! ## Leading bytes on which the scan does not stop -/

set_option maxRecDepth 100000 in
theorem utf8_scan_step_bad :
    ∀ c : Byte, ((0x80 ≤ c.val ∧ c.val ≤ 0xBF) ∨ c.val = 0xFF) →
      ∀ pat ∈ [0xE0, 0xF0, 0xF8, 0xFC, 0xFE, 0xFF],
        ((((charToInt pat <<< 1) % 2 ^ 32) ^^^ charToInt c.val) &&& charToInt pat) ≠ 0 ∧
          charShiftRight1 pat ∈ [0xE0, 0xF0, 0xF8, 0xFC, 0xFE, 0xFF] := by
  decide

theorem utf8_scan_never_stops (c : Byte) (hc : (0x80 ≤ c.val ∧ c.val ≤ 0xBF) ∨ c.val = 0xFF)
    (fuel : Nat) (pat : Nat) (hp : pat ∈ [0xE0, 0xF0, 0xF8, 0xFC, 0xFE, 0xFF]) (e : Nat) :
    utf8_scan fuel c.val pat e = none := by
  induction fuel generalizing pat e with
  | zero => rfl
  | succ fuel ih =>
    obtain ⟨h1, h2⟩ := utf8_scan_step_bad c hc pat hp
    rw [utf8_scan, if_pos h1]
    exact ih _ h2 _

/-- Claim C18, at the leading bytes `0x80..0xBF` and `0xFF`: the scan loop of
`read_into_utf8` keeps its condition true for every `pat` it reaches (`pat` stays `0xFF`
from the sixth test on), so that no fuel makes `read_into_utf8` return, whatever bytes
follow; the claim has it terminate for every leading byte. -/
theorem read_into_utf8_never_returns (c : Byte)
    (hc : (0x80 ≤ c.val ∧ c.val ≤ 0xBF) ∨ c.val = 0xFF) (fuel w : Nat) (s : Stream) :
    read_into_utf8 fuel w (c :: s) = none := by
  have h80 : ¬ (0x80 &&& charToInt c.val = 0) := by
    rw [charToInt_and_80]
    omega
  rw [read_into_utf8, if_neg h80, utf8_scan_never_stops c hc fuel 0xE0 (by decide)]

/-- The leading byte `0xFF`. -/
theorem read_into_utf8_never_returns_witness :
    ((0x80 ≤ (0xFF : Byte).val ∧ (0xFF : Byte).val ≤ 0xBF) ∨ (0xFF : Byte).val = 0xFF) ∧
      ∀ fuel w s, read_into_utf8 fuel w (0xFF :: s) = none :=
  ⟨by decide, fun fuel w s => read_into_utf8_never_returns 0xFF (by decide) fuel w s⟩

/-! ## Inputs on which the loop over the blocks does not stop -/

set_option maxRecDepth 100000 in
theorem byte_flag_clear : ∀ b : Byte, b.val < 128 → b.val &&& 128 = 0 := by
  decide

theorem parse_metadata_loop_no_flag (fuel : Nat) (flac : Flac) (s : Stream)
    (h : ∀ b ∈ s, b.val < 128) : parse_metadata_loop fuel false flac s = none := by
  induction fuel generalizing flac s with
  | zero => rfl
  | succ fuel ih =>
    have hh : (s.headD 0).val &&& 128 = 0 := by
      cases s with
      | nil => rfl
      | cons b s => exact byte_flag_clear b (h b (List.mem_cons_self _ _))
    rw [parse_metadata_loop, metadata_block_eq]
    simp only [hh, ne_eq, not_true_eq_false, decide_False]
    exact ih _ _ (fun b hb => h b (List.mem_of_mem_drop hb))

/-- Claim C19, on every input that holds a STREAMINFO block of type 0 with a nonzero
sample rate and the last-block flag clear, and whose bytes after the 38 bytes of that
block (if any) all have bit 7 clear: no fuel makes `parse_metadata` return, since no
header read later, from the input or past its end, carries the last-block flag; the claim
has `parse_metadata` terminate on every finite input. -/
theorem parse_metadata_never_returns (flac : Flac) (s : Stream)
    (hty : (s.headD 0).val &&& 127 = 0) (hsr : be_value ((s.drop 14).take 8) >>> 44 ≠ 0)
    (hflag : (s.headD 0).val &&& 128 = 0) (hrest : ∀ b ∈ s.drop 38, b.val < 128) (fuel : Nat) :
    parse_metadata fuel flac s = none := by
  rw [parse_metadata_eq fuel flac s hty hsr]
  simp only [hflag, ne_eq, not_true_eq_false, decide_False]
  rw [parse_metadata_loop_no_flag _ _ _ hrest]
  rfl

set_option maxRecDepth 100000 in
/-- The input `streaminfo_then_blocks`, which ends after two blocks without the flag. -/
theorem parse_metadata_never_returns_witness :
    ((streaminfo_then_blocks.headD 0).val &&& 127 = 0 ∧
      be_value ((streaminfo_then_blocks.drop 14).take 8) >>> 44 ≠ 0 ∧
      (streaminfo_then_blocks.headD 0).val &&& 128 = 0 ∧
      ∀ b ∈ streaminfo_then_blocks.drop 38, b.val < 128) ∧
    ∀ fuel, parse_metadata fuel initial streaminfo_then_blocks = none :=
  ⟨by decide, fun fuel => parse_metadata_never_returns initial streaminfo_then_blocks
    (by decide) (by decide) (by decide) (by decide) fuel⟩

/-! ## The stream info during the loop over the blocks -/

theorem parse_streaminfo_application_id (flac : Flac) (s : Stream) :
    (parse_streaminfo flac s).flac.application_id = flac.application_id := by
  unfold parse_streaminfo
  simp only []
  split
  · rfl
  · split
    · split <;> rfl
    · split <;> rfl

/-- The loop over the metadata blocks writes `application_id` only, and nothing at all
when none of the blocks it processes has type 2. -/
theorem parse_metadata_loop_unchanged (fuel : Nat) (flag : Bool) (flac : Flac) (s : Stream)
    (r : Flac × Stream) (h : parse_metadata_loop fuel flag flac s = some r) :
    r.1 = { flac with application_id := r.1.application_id } ∧
      (2 ∉ parse_metadata_loop_types fuel flag flac s → r.1 = flac) := by
  have e7 : ONES 7 = 127 := by decide
  induction fuel generalizing flag flac s with
  | zero =>
    cases flag
    · simp [parse_metadata_loop] at h
    · simp only [parse_metadata_loop, Option.some.injEq] at h
      subst h
      exact ⟨rfl, fun _ => rfl⟩
  | succ fuel ih =>
    cases flag
    · rw [parse_metadata_loop] at h
      obtain ⟨g1, g2⟩ := ih _ _ _ h
      have hb := metadata_block_eq flac s
      constructor
      · rw [g1, hb]
        split <;> rfl
      · intro hn
        rw [parse_metadata_loop_types, List.mem_cons, not_or, read_header_byte, e7] at hn
        rw [g2 hn.2, hb]
        simp only [Ne.symm hn.1, if_false]
    · simp only [parse_metadata_loop, Option.some.injEq] at h
      subst h
      exact ⟨rfl, fun _ => rfl⟩

/-- Claim C20: one pass of the loop over the metadata blocks changes no field of the
decoder state other than `application_id`, and no field at all when the block type is not
2 (so also on a second STREAMINFO block, type 0); whenever the loop returns, the state it
returns differs from the state after the STREAMINFO block in `application_id` at most, and
is that state when no block of type 2 was processed; and whenever `parse_metadata`, run
from the reset state, returns without a block of type 2 processed, `application_id` is
0. -/
theorem streaminfo_immutable (flac : Flac) (s : Stream) :
    ((metadata_block flac s).2.1
        = { flac with application_id := (metadata_block flac s).2.1.application_id } ∧
      ((s.headD 0).val &&& 127 ≠ 2 → (metadata_block flac s).2.1 = flac)) ∧
    (∀ fuel flag r, parse_metadata_loop fuel flag flac s = some r →
      r.1 = { flac with application_id := r.1.application_id } ∧
        (2 ∉ parse_metadata_loop_types fuel flag flac s → r.1 = flac)) ∧
    (∀ fuel r, parse_metadata fuel (reset_metadata flac) s = some r →
      2 ∉ parse_metadata_loop_types fuel
          (parse_streaminfo (reset_metadata flac) s).last_metadata_block_flag
          (parse_streaminfo (reset_metadata flac) s).flac
          (parse_streaminfo (reset_metadata flac) s).rest →
      r.2.1.application_id = 0) := by
  refine ⟨?_, fun fuel flag r h => parse_metadata_loop_unchanged fuel flag flac s r h, ?_⟩
  · rw [metadata_block_eq]
    constructor
    · split <;> rfl
    · intro h
      simp only [h, if_false]
  · intro fuel r hr hn
    have h0 : (parse_streaminfo (reset_metadata flac) s).flac.application_id = 0 :=
      parse_streaminfo_application_id _ _
    unfold parse_metadata at hr
    simp only [] at hr
    split at hr
    · split at hr
      · simp at hr
      · rename_i f1 s1 hl
        simp only [Option.some.injEq] at hr
        subst hr
        obtain ⟨-, g2⟩ := parse_metadata_loop_unchanged _ _ _ _ _ hl
        have hf : f1 = (parse_streaminfo (reset_metadata flac) s).flac := g2 hn
        simp only [hf]
        exact h0
    · simp only [Option.some.injEq] at hr
      subst hr
      exact h0

/-- The chain `metadata_chain` run from the state that `streaminfo_example` leaves: a
second STREAMINFO block and a padding block with the last-block flag are processed and the
state is returned as it was, with 13 bytes consumed. -/
theorem streaminfo_immutable_witness :
    (((metadata_block (parse_streaminfo initial streaminfo_example).flac metadata_chain).2.1
        = { (parse_streaminfo initial streaminfo_example).flac with
            application_id :=
              (metadata_block (parse_streaminfo initial streaminfo_example).flac
                metadata_chain).2.1.application_id } ∧
      ((metadata_chain.headD 0).val &&& 127 ≠ 2 →
        (metadata_block (parse_streaminfo initial streaminfo_example).flac metadata_chain).2.1
          = (parse_streaminfo initial streaminfo_example).flac)) ∧
    (∀ fuel flag r,
      parse_metadata_loop fuel flag (parse_streaminfo initial streaminfo_example).flac
          metadata_chain = some r →
      r.1 = { (parse_streaminfo initial streaminfo_example).flac with
              application_id := r.1.application_id } ∧
        (2 ∉ parse_metadata_loop_types fuel flag
            (parse_streaminfo initial streaminfo_example).flac metadata_chain →
          r.1 = (parse_streaminfo initial streaminfo_example).flac)) ∧
    (∀ fuel r,
      parse_metadata fuel (reset_metadata (parse_streaminfo initial streaminfo_example).flac)
          metadata_chain = some r →
      2 ∉ parse_metadata_loop_types fuel
          (parse_streaminfo (reset_metadata (parse_streaminfo initial streaminfo_example).flac)
            metadata_chain).last_metadata_block_flag
          (parse_streaminfo (reset_metadata (parse_streaminfo initial streaminfo_example).flac)
            metadata_chain).flac
          (parse_streaminfo (reset_metadata (parse_streaminfo initial streaminfo_example).flac)
            metadata_chain).rest →
      r.2.1.application_id = 0)) ∧
    parse_metadata_loop 2 false (parse_streaminfo initial streaminfo_example).flac metadata_chain
      = some ((parse_streaminfo initial streaminfo_example).flac, [7]) ∧
    parse_metadata_loop_types 2 false (parse_streaminfo initial streaminfo_example).flac
      metadata_chain = [0, 1] :=
  ⟨streaminfo_immutable (parse_streaminfo initial streaminfo_example).flac metadata_chain,
    by rfl, by rfl⟩

end FlacDecoder
